/-
Verification of the Duff-Metro ingestion/validation pipeline.

This file gives a shallow embedding, in Lean 4, of the data-cleaning code in
src/validate.py and of the cached geocoder in src/geocode.py, and proves the
behavioural claims about them.

Modelling conventions:
  * A pandas DataFrame is an ordered association list from column name to a
    list of cells (column-oriented), matching the way validate.py only ever
    touches whole columns.
  * A cell is a string, a (Python) integer, a rational number (the result of
    a numeric coercion; Python floats are modelled by exact rationals — every
    numeric literal exercised here is exactly representable), or null (NaN).
  * Each regular expression used by validate.py is embedded as an executable
    leftmost-search function.  For the patterns at hand, greedy maximal-munch
    matching coincides with Python backtracking semantics (each component
    following a greedy repetition is optional or begins with a character the
    repetition cannot consume), so the functions below implement the exact
    match Python's re module produces.
  * Python `float(...)` / `pd.to_numeric(..., errors="coerce")` string parsing
    is embedded as pyFloatParse.  Exotic inputs accepted by Python (underscore
    separators, "inf", "nan") are not modelled; none of them can be produced
    by the extraction step, whose outputs are always plain numeric tokens.
  * The `<number> million/billion` rewrite of the ANNUAL_RIDERSHIP branch runs
    `float(...)` and `int(...)` with no exception handler, so it can crash the
    whole pipeline: `float` raises ValueError when the captured group carries
    no digits (e.g. group ","), and `int` raises OverflowError when the scaled
    value is the float infinity.  These uncaught exceptions are modelled as an
    explicit error channel (PyError) threaded through coercion, conversion and
    validate_dataframe.  The ValueError condition is exact.  The OverflowError
    condition uses the exact decimal-to-double overflow boundary 2^1024 - 2^970
    applied to the exact product `value * factor`; CPython rounds the mantissa
    to a double before multiplying, so model and code can disagree only within
    one unit in the last place of that astronomical boundary.
-/
import Mathlib

set_option maxRecDepth 4000

namespace DuffMetro

/-! ## Python string primitives -/

/-- Drop leading and trailing characters satisfying a predicate, as Python
`str.strip` does. -/
def trimWhile (p : Char → Bool) (l : List Char) : List Char :=
  ((l.dropWhile p).reverse.dropWhile p).reverse

/-- Python `str.strip()` (whitespace at both ends). -/
def pyStrip (s : String) : String := ⟨trimWhile Char.isWhitespace s.data⟩

/-- Python `str.upper()` (ASCII case mapping suffices for this code base). -/
def pyUpper (s : String) : String := ⟨s.data.map Char.toUpper⟩

/-- Python `str.replace(" ", "_")`. -/
def spacesToUnderscores (s : String) : String :=
  ⟨s.data.map (fun c => if c = ' ' then '_' else c)⟩

/-- Collapse every run of underscores to a single underscore, tracking
whether the previous character was an (already emitted) underscore.  This is
the fixpoint of Python's `while "__" in normalized: replace("__", "_")`
loop, which terminates exactly when no two adjacent underscores remain. -/
def squeezeGo (prevU : Bool) : List Char → List Char
  | [] => []
  | c :: r =>
    if c = '_' then
      if prevU then squeezeGo true r else '_' :: squeezeGo true r
    else c :: squeezeGo false r

/-- What the `while "__" in normalized` loop of validate.py computes. -/
def squeezeUnderscores (l : List Char) : List Char := squeezeGo false l

/-- Embeds `normalize_column_name` of validate.py: strip, spaces to
underscores, non-alphanumerics to underscores, uppercase, collapse repeated
underscores, strip underscores. -/
def normalize_column_name (s : String) : String :=
  let l0 := trimWhile Char.isWhitespace s.data
  let l1 := l0.map (fun c => if c = ' ' then '_' else c)
  let l2 := l1.map (fun c => if c.isAlphanum || c = '_' then c else '_')
  let l3 := l2.map Char.toUpper
  let l4 := squeezeUnderscores l3
  ⟨trimWhile (fun c => c = '_') l4⟩

/-! ## Python dict (insertion-ordered association list) -/

/-- First-match lookup in an association list (Python dict access). -/
def alookup {α : Type} (k : String) : List (String × α) → Option α
  | [] => none
  | p :: r => if p.1 = k then some p.2 else alookup k r

/-- Python dict assignment: overwrite in place if the key exists, else append. -/
def dinsert {α : Type} (k : String) (v : α) : List (String × α) → List (String × α)
  | [] => [(k, v)]
  | p :: r => if p.1 = k then (p.1, v) :: r else p :: dinsert k v r

/-- Python `dict.values()`. -/
def dvalues {α : Type} (m : List (String × α)) : List α := m.map Prod.snd

/-! ## Static tables of validate.py -/

/-- `REQUIRED_COLUMNS` of validate.py. -/
def REQUIRED_COLUMNS : List String := ["SYSTEM_ID", "CITY", "COUNTRY"]

/-- `COLUMN_MAPPINGS` of validate.py: canonical name to known header variants. -/
def COLUMN_MAPPINGS : List (String × List String) :=
  [ ("CITY", ["CITY", "City"]),
    ("COUNTRY", ["COUNTRY", "Country"]),
    ("SYSTEM_ID", ["SYSTEM_ID", "Sequence"]),
    ("SYSTEM_NAME", ["SYSTEM_NAME", "Name"]),
    ("OPENED_YEAR", ["OPENED_YEAR"]),
    ("NUMBER_OF_LINES", ["NUMBER_OF_LINES", "Lines"]),
    ("TOTAL_MILES", ["TOTAL_MILES", "System length   miles"]),
    ("ANNUAL_RIDERSHIP", ["ANNUAL_RIDERSHIP", "Annual Ridership"]),
    ("CITY_POPULATION", ["CITY_POPULATION"]),
    ("VISITED", ["VISITED", "Ridden?"]),
    ("LAST_MAJOR_UPDATE", ["LAST_MAJOR_UPDATE", "Year of last expansion"]),
    ("STATIONS", ["Stations"]),
    ("LATITUDE", ["LATITUDE"]),
    ("LONGITUDE", ["LONGITUDE"]) ]

/-- `IGNORE_COLUMNS` of validate.py (whitespace reproduced exactly). -/
def IGNORE_COLUMNS : List String :=
  [ "City",
    "Year when First Ridden",
    "Continent",
    "Year opened (General Format)",
    "Year opened     (date order)",
    "System length  km",
    "Year of ridership data ",
    "Visited but subway not ridden",
    "Logo",
    "Pre-1985?" ]

/-! ## Column mapping (`map_columns_to_normalized`) -/

/-- The `for variant in variants: if variant in df.columns: ...; break` scan. -/
def findVariant (headers : List String) : List String → Option String
  | [] => none
  | v :: r => if v ∈ headers then some v else findVariant headers r

/-- One iteration of the first loop of `map_columns_to_normalized`. -/
def phase1Step (headers : List String) (m : List (String × String))
    (e : String × List String) : List (String × String) :=
  match findVariant headers e.2 with
  | some v => dinsert v e.1 m
  | none => m

/-- The first loop of `map_columns_to_normalized`: exact variant lookup. -/
def phase1 (headers : List String) (entries : List (String × List String))
    (m : List (String × String)) : List (String × String) :=
  entries.foldl (phase1Step headers) m

/-- One iteration of the second loop of `map_columns_to_normalized`: skip
headers already mapped, else map to the normalized name when it differs, is
not already a target, and the header is not ignored. -/
def phase2Step (m : List (String × String)) (col : String) : List (String × String) :=
  if (alookup col m).isSome then m
  else if normalize_column_name col ≠ col ∧
      ¬ normalize_column_name col ∈ dvalues m ∧ ¬ col ∈ IGNORE_COLUMNS then
    dinsert col (normalize_column_name col) m
  else m

/-- The second loop of `map_columns_to_normalized`: algorithmic normalization
of unmapped headers, guarded by the ignore list. -/
def phase2 (cols : List String) (m : List (String × String)) :
    List (String × String) :=
  cols.foldl phase2Step m

/-- The rename dictionary built by `map_columns_to_normalized` from the raw
header list. -/
def buildColumnMapping (headers : List String) : List (String × String) :=
  phase2 headers (phase1 headers COLUMN_MAPPINGS [])

/-! ## Cells and numeric parsing -/

/-- One spreadsheet cell, as seen by validate.py. -/
inductive Cell : Type where
  | str (s : String)
  | intv (n : ℤ)
  | num (q : ℚ)
  | null
deriving DecidableEq, Repr

/-- `pd.isna` on a cell. -/
def Cell.isna : Cell → Bool
  | .null => true
  | _ => false

/-- `series.astype(str)` on a cell.  `str(nan)` is `"nan"`.  A rational cell
only arises as the output of the numeric coercion (which is the last pipeline
step to read cell contents), so its Python float formatting is never
re-parsed; `toString` stands in for it. -/
def astypeStr : Cell → String
  | .str s => s
  | .intv n => toString n
  | .num q => toString q
  | .null => "nan"

/-- Digit list to natural number. -/
def digitsToNat (l : List Char) : ℕ :=
  l.foldl (fun a c => 10 * a + (c.toNat - 48)) 0

/-- Fractional part `.`-split of Python float syntax: on `'.' :: r` consume
the dot and all following digits. -/
def splitFrac (l : List Char) : List Char × List Char :=
  match l with
  | [] => ([], [])
  | c :: r =>
    if c = '.' then (r.takeWhile Char.isDigit, r.dropWhile Char.isDigit)
    else ([], c :: r)

/-- Exponent digits after an optional sign; `none` means a malformed
exponent (the whole parse fails). -/
def expTail (m : List Char) (sign : ℤ) : Option (ℤ × List Char) :=
  let d := m.takeWhile Char.isDigit
  if d = [] then none else some (sign * (digitsToNat d : ℤ), m.dropWhile Char.isDigit)

/-- Optional exponent of Python float syntax. -/
def parseExp (l : List Char) : Option (ℤ × List Char) :=
  match l with
  | [] => some (0, [])
  | c :: r =>
    if c = 'e' ∨ c = 'E' then
      match r with
      | [] => none
      | c2 :: r2 =>
        if c2 = '+' then expTail r2 1
        else if c2 = '-' then expTail r2 (-1)
        else expTail (c2 :: r2) 1
    else some (0, c :: r)

/-- Combine mantissa digits, fraction digits and a parsed exponent into the
exact rational value of the literal; a malformed exponent fails the parse. -/
def pyFloatFinish (d1 frac : List Char) : Option (ℤ × List Char) → Option ℚ
  | none => none
  | some (e, rest) =>
    if rest = [] then
      some (mkRat (Int.ofNat (digitsToNat (d1 ++ frac) * 10 ^ e.toNat))
        (10 ^ frac.length * 10 ^ (-e).toNat))
    else none

/-- Unsigned mantissa (digits, optional dot, digits) with optional exponent;
requires at least one mantissa digit and no trailing characters. -/
def pyFloatCore (l : List Char) : Option ℚ :=
  if l.takeWhile Char.isDigit = [] ∧ (splitFrac (l.dropWhile Char.isDigit)).1 = [] then none
  else
    pyFloatFinish (l.takeWhile Char.isDigit) (splitFrac (l.dropWhile Char.isDigit)).1
      (parseExp (splitFrac (l.dropWhile Char.isDigit)).2)

/-- Signed Python float literal parse of a trimmed character list. -/
def pyFloatParseL (l : List Char) : Option ℚ :=
  match l with
  | [] => none
  | c :: r =>
    if c = '+' then pyFloatCore r
    else if c = '-' then (pyFloatCore r).map Rat.neg
    else pyFloatCore (c :: r)

/-- Python `float(s)` / per-cell `pd.to_numeric(s, errors="coerce")` on a
string: `none` models NaN/ValueError. -/
def pyFloatParse (s : String) : Option ℚ :=
  pyFloatParseL (trimWhile Char.isWhitespace s.data)

/-- `pd.to_numeric(..., errors="coerce")` applied to one raw cell, used by
the Sequence row filter. -/
def parseNumericCell : Cell → Option ℚ
  | .null => none
  | .intv n => some n
  | .num q => some q
  | .str s => pyFloatParse s

/-! ## Regular-expression machinery

The numeric pattern of validate.py is
`[-+]?\d{1,3}(?:,\d{3})*(?:\.\d+)?`.
Greedy maximal-munch matching is exact for it: every component after a greedy
repetition is optional, and no shorter choice of a repetition can make a
later component match (a repetition stops only at a character that the next
component rejects as well). -/

/-- Greedy `(?:,\d{3})*`: comma groups of exactly three digits. Returns the
consumed characters and the remainder. -/
def commaGroups (l : List Char) : List Char × List Char :=
  match l with
  | [] => ([], [])
  | c :: r =>
    if c = ',' then
      match r with
      | a :: b :: c2 :: r' =>
        if a.isDigit && b.isDigit && c2.isDigit then
          let p := commaGroups r'
          (c :: a :: b :: c2 :: p.1, p.2)
        else ([], c :: r)
      | _ => ([], c :: r)
    else ([], c :: r)

/-- Greedy `(?:\.\d+)?`: a dot followed by at least one digit, or nothing. -/
def fracAt (l : List Char) : List Char :=
  match l with
  | [] => []
  | c :: r =>
    if c = '.' then
      if r.takeWhile Char.isDigit = [] then [] else '.' :: r.takeWhile Char.isDigit
    else []

/-- Match `\d{1,3}(?:,\d{3})*(?:\.\d+)?` at the head of the list, returning
the matched characters. -/
def numAtCore (l : List Char) : Option (List Char) :=
  let d := (l.takeWhile Char.isDigit).take 3
  if d = [] then none
  else
    let r1 := l.drop d.length
    let p := commaGroups r1
    some (d ++ p.1 ++ fracAt p.2)

/-- Match the full signed pattern `[-+]?\d{1,3}(?:,\d{3})*(?:\.\d+)?` at the
head of the list. -/
def numAt (l : List Char) : Option (List Char) :=
  match l with
  | [] => none
  | c :: r =>
    if c = '+' ∨ c = '-' then (numAtCore r).map (fun g => c :: g)
    else numAtCore (c :: r)

/-- `re.search`: try the head matcher at every position, leftmost first. -/
def scanSearch (f : List Char → Option (List Char)) : List Char → Option (List Char)
  | [] => f []
  | c :: r =>
    match f (c :: r) with
    | some g => some g
    | none => scanSearch f r

/-- `re.search` of the bare numeric pattern, returning group 1. -/
def numSearch (l : List Char) : Option (List Char) := scanSearch numAt l

/-- Matcher at one position for
`\(?\s*([-+]?\d{1,3}(?:,\d{3})*(?:\.\d+)?)\s*(?:mi|miles?|km|kilometers?)?\s*\)?`
(the TOTAL_MILES/LATITUDE/LONGITUDE pattern).  The optional prefix is an
optional parenthesis then whitespace; everything after group 1 is optional
and so never constrains the match. -/
def parenNumAt (l : List Char) : Option (List Char) :=
  match l with
  | [] => none
  | c :: r =>
    if c = '(' then numAt (r.dropWhile Char.isWhitespace)
    else numAt ((c :: r).dropWhile Char.isWhitespace)

/-- `re.search` of the parenthesis/unit pattern, returning group 1. -/
def parenUnitSearch (l : List Char) : Option (List Char) := scanSearch parenNumAt l

/-- Fuelled worker for stripParens; the fuel only needs to exceed the list
length, since every step consumes at least one character. -/
def stripParensF (fuel : ℕ) (l : List Char) : List Char :=
  match fuel with
  | 0 => l
  | fuel + 1 =>
    match l with
    | [] => []
    | c :: r =>
      if c = '(' then
        if ')' ∈ r then stripParensF fuel ((r.dropWhile (fun x => x ≠ ')')).tail)
        else c :: stripParensF fuel r
      else c :: stripParensF fuel r

/-- `re.sub(r'\([^)]*\)', '', val)`: drop every parenthetical group (up to the
first closing parenthesis); an unmatched opening parenthesis stays. -/
def stripParens (l : List Char) : List Char := stripParensF (l.length + 1) l

/-- Is the character a digit or a comma (the `[\d,]` class)? -/
def isDigitOrComma (c : Char) : Bool := c.isDigit || c = ','

/-- Greedy `\.?\d*` (dot optional, digits optional). -/
def dotPartAt (l : List Char) : List Char × List Char :=
  match l with
  | [] => ([], [])
  | c :: r =>
    if c = '.' then ('.' :: r.takeWhile Char.isDigit, r.dropWhile Char.isDigit)
    else ([], c :: r)

/-- Matcher at one position for `([\d,]+\.?\d*)\s*WORD` (the
"million"/"billion" patterns of the ANNUAL_RIDERSHIP branch), case
insensitive in the literal word; returns group 1. -/
def mmGroupAt (w : List Char) (l : List Char) : Option (List Char) :=
  let run := l.takeWhile isDigitOrComma
  if run = [] then none
  else
    let p := dotPartAt (l.drop run.length)
    if w.isPrefixOf ((p.2.dropWhile Char.isWhitespace).map Char.toLower) then
      some (run ++ p.1)
    else none

/-- `re.search` of the `<number> WORD` pattern. -/
def mmSearch (w : List Char) (l : List Char) : Option (List Char) :=
  scanSearch (mmGroupAt w) l

/-- Matcher at one position for `(\d{4})` (the LAST_MAJOR_UPDATE pattern). -/
def yearAt (l : List Char) : Option (List Char) :=
  match l with
  | a :: b :: c :: d :: _ =>
    if a.isDigit && b.isDigit && c.isDigit && d.isDigit then some [a, b, c, d]
    else none
  | _ => none

/-- `re.search` of the four-digit year pattern. -/
def yearSearch (l : List Char) : Option (List Char) := scanSearch yearAt l

/-! ## Per-cell numeric coercion (`robust_to_numeric`) -/

/-- The tokens `converted.isin([...])` masks to null (the literal list of
validate.py, duplicate included). -/
def NULL_TOKENS : List String := ["nan", "None", "", "None", "NaT", "<NA>"]

/-- Remove the commas of a matched group (`group(1).replace(',', '')`). -/
def dropCommas (g : List Char) : String := ⟨g.filter (fun c => c ≠ ',')⟩

/-- An exception raised by the unguarded `float(...)`/`int(...)` calls of the
million/billion rewrite, propagating uncaught out of the pipeline. -/
inductive PyError : Type where
  /-- `float('')` (a captured group with no digits). -/
  | valueError
  /-- `int(inf)` (the scaled value overflows the double range). -/
  | overflowError
deriving DecidableEq, Repr

/-- The exact value threshold at which CPython's decimal-string-to-double
conversion overflows to infinity (verified boundary: one below stays
finite). -/
def overflowThresholdNum : ℕ := 2 ^ 1024 - 2 ^ 970

/-- The `X million` / `X billion` rewrite: `str(int(float(group) * factor))`
with no exception handler.  `float` raises ValueError when the comma-stripped
group parses to no number; `int` raises OverflowError when the scaled value
reaches the float infinity, modelled as the exact product reaching the
overflow boundary.  On success the truncation toward zero of `q * factor` is
computed on the exact fraction. -/
def scaleToIntStr (g : List Char) (factor : ℕ) : Except PyError (Option String) :=
  match pyFloatParse (dropCommas g) with
  | none => .error .valueError
  | some q =>
    if Int.ofNat overflowThresholdNum * Int.ofNat q.den ≤ q.num * Int.ofNat factor then
      .error .overflowError
    else .ok (some (toString (Int.tdiv (q.num * Int.ofNat factor) (Int.ofNat q.den))))

/-- The ANNUAL_RIDERSHIP branch of `robust_to_numeric`; the only branch that
can raise. -/
def ridershipExtract (v : List Char) : Except PyError (Option String) :=
  match mmSearch "billion".data v with
  | some g => scaleToIntStr g 1000000000
  | none =>
    match mmSearch "million".data v with
    | some g => scaleToIntStr g 1000000
    | none => .ok ((numSearch (stripParens v)).map dropCommas)

/-- The TOTAL_MILES / LATITUDE / LONGITUDE branch: non-breaking spaces become
spaces, then the parenthesis/unit pattern, then the bare pattern. -/
def milesExtract (v : List Char) : Option String :=
  let v' := v.map (fun c => if c = '\xA0' then ' ' else c)
  match parenUnitSearch v' with
  | some g => some (dropCommas g)
  | none => (numSearch v').map dropCommas

/-- The LAST_MAJOR_UPDATE branch: first four-digit run. -/
def yearExtract (v : List Char) : Option String :=
  (yearSearch v).map (fun g => ⟨g⟩)

/-- The default branch: strip parentheticals, then the bare pattern. -/
def genericExtract (v : List Char) : Option String :=
  (numSearch (stripParens v)).map dropCommas

/-- Branch dispatch of `robust_to_numeric` on the column name. -/
def branchExtract (col : String) (v : List Char) : Except PyError (Option String) :=
  if col = "ANNUAL_RIDERSHIP" then ridershipExtract v
  else if col = "TOTAL_MILES" ∨ col = "LATITUDE" ∨ col = "LONGITUDE" then
    .ok (milesExtract v)
  else if col = "LAST_MAJOR_UPDATE" then .ok (yearExtract v)
  else .ok (genericExtract v)

/-- Full per-cell pipeline of `robust_to_numeric`: null-token mask, strip,
branch extraction (which may raise), final
`pd.to_numeric(..., errors="coerce")`. -/
def coerceCell (col : String) (c : Cell) : Except PyError (Option ℚ) :=
  if astypeStr c ∈ NULL_TOKENS then .ok none
  else
    match branchExtract col (pyStrip (astypeStr c)).data with
    | .error e => .error e
    | .ok os => .ok (os.bind pyFloatParse)

/-- `pandas.Series.unique`: first-occurrence-order deduplication. -/
def uniqFirstGo (seen : List Cell) : List Cell → List Cell
  | [] => []
  | c :: r => if c ∈ seen then uniqFirstGo seen r else c :: uniqFirstGo (c :: seen) r

/-- First-occurrence-order deduplication. -/
def uniqFirst (l : List Cell) : List Cell := uniqFirstGo [] l

/-- Coerce the cells of a column in index order; the first raising cell
aborts the loop, as the uncaught Python exception does. -/
def coerceCells (col : String) : List Cell → Except PyError (List (Option ℚ))
  | [] => .ok []
  | c :: r =>
    match coerceCell col c with
    | .error e => .error e
    | .ok v =>
      match coerceCells col r with
      | .error e => .error e
      | .ok vs => .ok (v :: vs)

/-- Embeds `robust_to_numeric`: the coerced column and up to three distinct
original values that were non-null but coerced to null — unless a cell of the
ANNUAL_RIDERSHIP rewrite raises, which aborts the whole call. -/
def robust_to_numeric (cells : List Cell) (col : String) :
    Except PyError (List (Option ℚ) × List Cell) :=
  match coerceCells col cells with
  | .error e => .error e
  | .ok result =>
    .ok (result, (uniqFirst ((cells.zip result).filterMap
      (fun p => if p.2 = none ∧ p.1.isna = false then some p.1 else none))).take 3)

/-! ## DataFrame model and pipeline orchestration -/

/-- A pandas DataFrame: an ordered association list from column name to the
column's cells. -/
abbrev Col := List Cell

/-- A pandas DataFrame, column oriented. -/
abbrev DataFrame := List (String × Col)

/-- The header list of a DataFrame. -/
def headers (df : DataFrame) : List String := df.map Prod.fst

/-- Column access (`df[name]`), first match. -/
def dfLookup (df : DataFrame) (name : String) : Option Col := alookup name df

/-- Number of rows (taken from the first column; validate.py only ever sees
rectangular frames). -/
def nrows (df : DataFrame) : ℕ :=
  match df with
  | [] => 0
  | p :: _ => p.2.length

/-- Column assignment (`df[name] = col`): replace in place, else append. -/
def setCol (df : DataFrame) (name : String) (c : Col) : DataFrame :=
  if (dfLookup df name).isSome then
    df.map (fun p => if p.1 = name then (p.1, c) else p)
  else df ++ [(name, c)]

/-- `df.get(name, "")` as used by `generate_system_id_if_missing`: the column
if present, else one empty string per row. -/
def getColD (df : DataFrame) (name : String) : Col :=
  (dfLookup df name).getD (List.replicate (nrows df) (Cell.str ""))

/-- Rename the columns of a DataFrame along a mapping dictionary. -/
def renameColumns (m : List (String × String)) (df : DataFrame) : DataFrame :=
  df.map (fun p => ((alookup p.1 m).getD p.1, p.2))

/-- Embeds `map_columns_to_normalized`. -/
def map_columns_to_normalized (df : DataFrame) : DataFrame :=
  renameColumns (buildColumnMapping (headers df)) df

/-- Embeds `validate_required_columns`: the required columns absent from the
frame, in REQUIRED_COLUMNS order. -/
def validate_required_columns (df : DataFrame) : List String :=
  REQUIRED_COLUMNS.filter (fun c => ¬ c ∈ headers df)

/-- One synthesized SYSTEM_ID value:
`(CITY.strip() + "_" + COUNTRY.strip()).upper().replace(" ", "_")`. -/
def synthSystemId (city country : Cell) : Cell :=
  Cell.str (spacesToUnderscores (pyUpper
    ⟨(pyStrip (astypeStr city)).data ++ '_' :: (pyStrip (astypeStr country)).data⟩))

/-- Embeds `generate_system_id_if_missing`: backfill SYSTEM_ID from CITY and
COUNTRY only when the column is absent or entirely null. -/
def generate_system_id_if_missing (df : DataFrame) : DataFrame :=
  match dfLookup df "SYSTEM_ID" with
  | none =>
    setCol df "SYSTEM_ID" (List.zipWith synthSystemId (getColD df "CITY") (getColD df "COUNTRY"))
  | some col =>
    if col.all Cell.isna then
      setCol df "SYSTEM_ID" (List.zipWith synthSystemId (getColD df "CITY") (getColD df "COUNTRY"))
    else df

/-- One human-readable issue of the pipeline.  validate.py renders these as
strings; the constructor arguments carry exactly the data interpolated into
the message text. -/
inductive Issue : Type where
  /-- "Filtered out {n} row(s) with non-numeric Sequence values." -/
  | seqFiltered (n : ℕ)
  /-- "Column {col}: Could not convert values to numeric. Example failing
  values: {samples}" -/
  | convError (col : String) (samples : List Cell)
deriving DecidableEq, Repr

/-- The numeric column list of `convert_numeric_columns`, in iteration
order. -/
def numericColumns : List String :=
  [ "OPENED_YEAR", "NUMBER_OF_LINES", "TOTAL_MILES",
    "ANNUAL_RIDERSHIP", "CITY_POPULATION", "STATIONS",
    "LAST_MAJOR_UPDATE", "LATITUDE", "LONGITUDE" ]

/-- A coerced value written back into the frame. -/
def coercedToCell : Option ℚ → Cell
  | some q => Cell.num q
  | none => Cell.null

/-- One iteration of the column loop of `convert_numeric_columns`:
coerce the column if present; ANNUAL_RIDERSHIP and LAST_MAJOR_UPDATE never
report errors; a raising coercion aborts the loop. -/
def convStep (acc : DataFrame × List Issue) (col : String) :
    Except PyError (DataFrame × List Issue) :=
  match dfLookup acc.1 col with
  | none => .ok acc
  | some cells =>
    match robust_to_numeric cells col with
    | .error e => .error e
    | .ok p =>
      if col = "ANNUAL_RIDERSHIP" ∨ col = "LAST_MAJOR_UPDATE" then
        .ok (setCol acc.1 col (p.1.map coercedToCell), acc.2)
      else if p.2 = [] then
        .ok (setCol acc.1 col (p.1.map coercedToCell), acc.2)
      else
        .ok (setCol acc.1 col (p.1.map coercedToCell),
          acc.2 ++ [Issue.convError col p.2])

/-- The column loop of `convert_numeric_columns`, in iteration order; the
first raising column propagates its exception. -/
def convFold : List String → DataFrame × List Issue →
    Except PyError (DataFrame × List Issue)
  | [], acc => .ok acc
  | col :: rest, acc =>
    match convStep acc col with
    | .error e => .error e
    | .ok acc' => convFold rest acc'

/-- Embeds `convert_numeric_columns`. -/
def convert_numeric_columns (df : DataFrame) :
    Except PyError (DataFrame × List Issue) :=
  convFold numericColumns (df, [])

/-- Keep the entries of a column whose mask bit is true (boolean row
indexing). -/
def applyMask (mask : List Bool) (c : Col) : Col :=
  (mask.zip c).filterMap (fun p => if p.1 then some p.2 else none)

/-- The row mask of step 0 of `validate_dataframe`: true where the Sequence
value parses as numeric. -/
def seqMask (sc : Col) : List Bool := sc.map (fun c => (parseNumericCell c).isSome)

/-- How many rows step 0 drops (`(~valid_mask).sum()`). -/
def seqDropCount (sc : Col) : ℕ := ((seqMask sc).filter (fun b => !b)).length

/-- Step 0 of `validate_dataframe`: if a raw Sequence column exists, drop the
rows whose Sequence value fails `pd.to_numeric`, warning with the count when
positive. -/
def seqFilterStep (df : DataFrame) : DataFrame × List Issue :=
  match dfLookup df "Sequence" with
  | none => (df, [])
  | some sc =>
    if 0 < seqDropCount sc then
      (df.map (fun p => (p.1, applyMask (seqMask sc) p.2)), [Issue.seqFiltered (seqDropCount sc)])
    else (df, [])

/-- How a `validate_dataframe` call can abort without producing a table. -/
inductive PipelineError : Type where
  /-- The deliberately raised ValidationError, carrying the missing-column
  list interpolated into its message. -/
  | validationError (missing : List String)
  /-- An uncaught ValueError/OverflowError escaping the numeric coercion. -/
  | pyError (e : PyError)
deriving DecidableEq, Repr

/-- Embeds `validate_dataframe`: sequence filter, column normalization,
required-column check (fatal, the error carries the missing-column list),
SYSTEM_ID backfill, numeric coercion (whose uncaught exceptions also abort);
`parse_date_columns` is the identity and contributes no issues.  Issues are
errors then warnings, as in `all_issues = errors + warnings`. -/
def validate_dataframe (df : DataFrame) :
    Except PipelineError (DataFrame × List Issue) :=
  if "CITY" ∈ validate_required_columns (map_columns_to_normalized (seqFilterStep df).1) ∨
      "COUNTRY" ∈ validate_required_columns (map_columns_to_normalized (seqFilterStep df).1) then
    Except.error (PipelineError.validationError
      (validate_required_columns (map_columns_to_normalized (seqFilterStep df).1)))
  else
    match convert_numeric_columns (generate_system_id_if_missing
        (map_columns_to_normalized (seqFilterStep df).1)) with
    | .error e => Except.error (PipelineError.pyError e)
    | .ok p3 => Except.ok (p3.1, p3.2 ++ (seqFilterStep df).2)

/-! ## Geocoder (`geocode_location`) -/

/-- What the external Nominatim service does for one query. -/
inductive GeoOutcome : Type where
  /-- The service returns a location. -/
  | found (lat lon : ℚ)
  /-- The service answers but finds nothing. -/
  | notFound
  /-- Timeout, service error, or any other exception. -/
  | failure
deriving DecidableEq, Repr

/-- Is the outcome a successful lookup? -/
def GeoOutcome.isFound : GeoOutcome → Bool
  | .found _ _ => true
  | _ => false

/-- The geocoding cache: query string to coordinates, or a negative entry. -/
abbrev GeoCache := List (String × Option (ℚ × ℚ))

/-- Result of one `geocode_location` call, with its observable effects:
the returned coordinates, the cache afterwards, how many network calls were
issued and how many rate-limit sleeps were taken. -/
structure GeoResult : Type where
  coords : Option (ℚ × ℚ)
  cache : GeoCache
  netCalls : ℕ
  sleeps : ℕ
deriving DecidableEq, Repr

/-- Embeds `geocode_location` of geocode.py against an oracle describing the
external service: cache-first lookup; on a miss one network call; a 0.5 s
sleep only after a successful call; negative caching of failures. -/
def geocode_location (city country : String) (cache : GeoCache)
    (oracle : String → GeoOutcome) : GeoResult :=
  match alookup (city ++ ", " ++ country) cache with
  | some v => ⟨v, cache, 0, 0⟩
  | none =>
    match oracle (city ++ ", " ++ country) with
    | .found lat lon =>
      ⟨some (lat, lon), dinsert (city ++ ", " ++ country) (some (lat, lon)) cache, 1, 1⟩
    | .notFound => ⟨none, dinsert (city ++ ", " ++ country) none cache, 1, 0⟩
    | .failure => ⟨none, dinsert (city ++ ", " ++ country) none cache, 1, 0⟩

/-! ## Dictionary lemmas -/

theorem alookup_dinsert_self {α : Type} (k : String) (v : α) (m : List (String × α)) :
    alookup k (dinsert k v m) = some v := by
  induction m with
  | nil => simp [dinsert, alookup]
  | cons p r ih =>
    by_cases hp : p.1 = k
    · simp [dinsert, alookup, hp]
    · simp [dinsert, alookup, hp, ih]

theorem alookup_dinsert_ne {α : Type} (k k' : String) (v : α) (m : List (String × α))
    (h : k' ≠ k) : alookup k (dinsert k' v m) = alookup k m := by
  induction m with
  | nil => simp [dinsert, alookup, h]
  | cons p r ih =>
    by_cases hp : p.1 = k'
    · have hpk : ¬ p.1 = k := by rw [hp]; exact h
      simp [dinsert, alookup, hp, hpk, h]
    · simp only [dinsert, if_neg hp, alookup]
      by_cases hk : p.1 = k
      · rw [if_pos hk, if_pos hk]
      · rw [if_neg hk, if_neg hk, ih]

theorem alookup_dinsert_inv {α : Type} (k k' : String) (v w : α) (m : List (String × α))
    (h : alookup k (dinsert k' v m) = some w) :
    (k = k' ∧ w = v) ∨ alookup k m = some w := by
  induction m with
  | nil =>
    simp only [dinsert, alookup] at h
    by_cases hk : k' = k
    · rw [if_pos hk] at h
      exact Or.inl ⟨hk.symm, (Option.some.inj h).symm⟩
    · rw [if_neg hk] at h
      exact absurd h (by simp)
  | cons p r ih =>
    simp only [dinsert] at h
    by_cases hp : p.1 = k'
    · rw [if_pos hp] at h
      simp only [alookup] at h
      by_cases hk : p.1 = k
      · rw [if_pos hk] at h
        have hkk : k = k' := by rw [← hk, hp]
        exact Or.inl ⟨hkk, (Option.some.inj h).symm⟩
      · rw [if_neg hk] at h
        right
        simp only [alookup]
        rw [if_neg hk]
        exact h
    · rw [if_neg hp] at h
      simp only [alookup] at h
      by_cases hk : p.1 = k
      · rw [if_pos hk] at h
        right
        simp only [alookup]
        rw [if_pos hk]
        exact h
      · rw [if_neg hk] at h
        rcases ih h with h1 | h2
        · exact Or.inl h1
        · right
          simp only [alookup]
          rw [if_neg hk]
          exact h2

theorem alookup_mem_dvalues {α : Type} (k : String) (v : α) (m : List (String × α))
    (h : alookup k m = some v) : v ∈ dvalues m := by
  induction m with
  | nil => simp [alookup] at h
  | cons p r ih =>
    by_cases hk : p.1 = k
    · simp [alookup, hk] at h
      simp [dvalues, h]
    · simp only [alookup, hk, if_neg hk] at h
      simp [dvalues] at ih ⊢
      exact Or.inr (ih h)

theorem dinsert_of_alookup_none {α : Type} (k : String) (v : α) (m : List (String × α))
    (h : alookup k m = none) : dinsert k v m = m ++ [(k, v)] := by
  induction m with
  | nil => simp [dinsert]
  | cons p r ih =>
    by_cases hk : p.1 = k
    · simp [alookup, hk] at h
    · simp only [alookup, hk, if_neg hk] at h
      simp [dinsert, hk, ih h]

theorem dvalues_append {α : Type} (m m' : List (String × α)) :
    dvalues (m ++ m') = dvalues m ++ dvalues m' := by
  simp [dvalues]

/-! ## Column-mapping lemmas -/

theorem findVariant_mem (hs vs : List String) (v : String)
    (h : findVariant hs vs = some v) : v ∈ vs := by
  induction vs with
  | nil => simp [findVariant] at h
  | cons w r ih =>
    simp only [findVariant] at h
    by_cases hw : w ∈ hs
    · rw [if_pos hw] at h
      simp at h
      simp [h]
    · rw [if_neg hw] at h
      simp [ih h]

theorem phase1_preserve (hs : List String) (entries : List (String × List String))
    (m : List (String × String)) (k : String) (he : ∀ e ∈ entries, ¬ k ∈ e.2) :
    alookup k (phase1 hs entries m) = alookup k m := by
  induction entries generalizing m with
  | nil => rfl
  | cons e rest ih =>
    have hstep : alookup k (phase1Step hs m e) = alookup k m := by
      unfold phase1Step
      cases hv : findVariant hs e.2 with
      | none => rfl
      | some v =>
        have hvm : v ∈ e.2 := findVariant_mem hs e.2 v hv
        have hvk : v ≠ k := by
          intro hvk
          exact he e (List.mem_cons_self e rest) (hvk ▸ hvm)
        exact alookup_dinsert_ne k v e.1 m hvk
    have hrw : phase1 hs (e :: rest) m = phase1 hs rest (phase1Step hs m e) := rfl
    rw [hrw, ih (phase1Step hs m e) (fun e' he' => he e' (List.mem_cons_of_mem e he')), hstep]

theorem phase1_binding (hs : List String) (entries : List (String × List String))
    (m : List (String × String)) (k v : String)
    (h : alookup k (phase1 hs entries m) = some v) :
    alookup k m = some v ∨ ∃ e ∈ entries, k ∈ e.2 ∧ v = e.1 := by
  induction entries generalizing m with
  | nil => exact Or.inl h
  | cons e rest ih =>
    have hrw : phase1 hs (e :: rest) m = phase1 hs rest (phase1Step hs m e) := rfl
    rw [hrw] at h
    rcases ih (phase1Step hs m e) h with h1 | h2
    · unfold phase1Step at h1
      cases hv : findVariant hs e.2 with
      | none =>
        rw [hv] at h1
        exact Or.inl h1
      | some w =>
        rw [hv] at h1
        rcases alookup_dinsert_inv k w e.1 v m h1 with ⟨hkw, hve⟩ | hm
        · right
          exact ⟨e, List.mem_cons_self e rest, hkw ▸ findVariant_mem hs e.2 w hv, hve⟩
        · exact Or.inl hm
    · rcases h2 with ⟨e', he', hk, hv⟩
      exact Or.inr ⟨e', List.mem_cons_of_mem e he', hk, hv⟩

theorem phase2Step_cases (m : List (String × String)) (col : String) :
    phase2Step m col = m ∨
      ((alookup col m).isSome = false ∧ ¬ col ∈ IGNORE_COLUMNS ∧
        ¬ normalize_column_name col ∈ dvalues m ∧
        phase2Step m col = dinsert col (normalize_column_name col) m) := by
  unfold phase2Step
  by_cases h1 : (alookup col m).isSome
  · rw [if_pos h1]
    exact Or.inl rfl
  · rw [if_neg h1]
    by_cases h2 : normalize_column_name col ≠ col ∧
        ¬ normalize_column_name col ∈ dvalues m ∧ ¬ col ∈ IGNORE_COLUMNS
    · rw [if_pos h2]
      exact Or.inr ⟨Bool.not_eq_true _ ▸ h1, h2.2.2, h2.2.1, rfl⟩
    · rw [if_neg h2]
      exact Or.inl rfl

theorem phase2_preserve_ignored (cols : List String) (m : List (String × String))
    (k : String) (hk : k ∈ IGNORE_COLUMNS) :
    alookup k (phase2 cols m) = alookup k m := by
  induction cols generalizing m with
  | nil => rfl
  | cons col rest ih =>
    have hrw : phase2 (col :: rest) m = phase2 rest (phase2Step m col) := rfl
    have hstep : alookup k (phase2Step m col) = alookup k m := by
      rcases phase2Step_cases m col with h | ⟨_, hcol, _, heq⟩
      · rw [h]
      · have hck : col ≠ k := fun hck => hcol (hck ▸ hk)
        rw [heq, alookup_dinsert_ne k col (normalize_column_name col) m hck]
    rw [hrw, ih (phase2Step m col), hstep]

theorem phase2_preserve_bound (cols : List String) (m : List (String × String))
    (k : String) (hk : (alookup k m).isSome) :
    alookup k (phase2 cols m) = alookup k m := by
  induction cols generalizing m with
  | nil => rfl
  | cons col rest ih =>
    have hrw : phase2 (col :: rest) m = phase2 rest (phase2Step m col) := rfl
    have hstep : alookup k (phase2Step m col) = alookup k m := by
      rcases phase2Step_cases m col with h | ⟨hnone, _, _, heq⟩
      · rw [h]
      · have hck : col ≠ k := by
          intro hck
          rw [hck] at hnone
          rw [hnone] at hk
          exact Bool.false_ne_true hk
        rw [heq, alookup_dinsert_ne k col (normalize_column_name col) m hck]
    rw [hrw, ih (phase2Step m col) (by rw [hstep]; exact hk), hstep]

theorem phase2_values_mono (cols : List String) (m : List (String × String))
    (v : String) (hv : v ∈ dvalues m) : v ∈ dvalues (phase2 cols m) := by
  induction cols generalizing m with
  | nil => exact hv
  | cons col rest ih =>
    have hrw : phase2 (col :: rest) m = phase2 rest (phase2Step m col) := rfl
    have hstep : v ∈ dvalues (phase2Step m col) := by
      rcases phase2Step_cases m col with h | ⟨hnone, _, _, heq⟩
      · rw [h]; exact hv
      · rw [heq, dinsert_of_alookup_none col (normalize_column_name col) m
          (Option.not_isSome_iff_eq_none.mp (by rw [hnone]; exact Bool.false_ne_true)),
          dvalues_append]
        exact List.mem_append_left _ hv
    rw [hrw]
    exact ih (phase2Step m col) hstep

theorem phase2_binding_val (cols : List String) (m : List (String × String))
    (k v₀ : String) (hv : v₀ ∈ dvalues m) (h : alookup k (phase2 cols m) = some v₀) :
    alookup k m = some v₀ := by
  induction cols generalizing m with
  | nil => exact h
  | cons col rest ih =>
    have hrw : phase2 (col :: rest) m = phase2 rest (phase2Step m col) := rfl
    rw [hrw] at h
    rcases phase2Step_cases m col with hid | ⟨hnone, _, hnv, heq⟩
    · rw [hid] at h
      exact ih m hv h
    · rw [heq] at h
      have hv' : v₀ ∈ dvalues (dinsert col (normalize_column_name col) m) := by
        rw [dinsert_of_alookup_none col (normalize_column_name col) m
          (Option.not_isSome_iff_eq_none.mp (by rw [hnone]; exact Bool.false_ne_true)),
          dvalues_append]
        exact List.mem_append_left _ hv
      have hrec := ih (dinsert col (normalize_column_name col) m) hv' h
      rcases alookup_dinsert_inv k col (normalize_column_name col) v₀ m hrec with ⟨_, hveq⟩ | hm
      · exact absurd (hveq ▸ hv) hnv
      · exact hm

/-! ## Conversion-error provenance -/

theorem convStep_ok_issues (acc : DataFrame × List Issue) (col : String)
    (acc' : DataFrame × List Issue) (h : convStep acc col = .ok acc') :
    ∀ c s, Issue.convError c s ∈ acc'.2 →
      Issue.convError c s ∈ acc.2 ∨
        (c = col ∧ ¬ col = "ANNUAL_RIDERSHIP" ∧ ¬ col = "LAST_MAJOR_UPDATE") := by
  intro c s hmem
  unfold convStep at h
  split at h
  · rw [← Except.ok.inj h] at hmem
    exact Or.inl hmem
  · split at h
    · exact Except.noConfusion h
    · rename_i cells _ p _
      by_cases hex : col = "ANNUAL_RIDERSHIP" ∨ col = "LAST_MAJOR_UPDATE"
      · rw [if_pos hex] at h
        rw [← Except.ok.inj h] at hmem
        exact Or.inl hmem
      · rw [if_neg hex] at h
        push_neg at hex
        by_cases hf : p.2 = []
        · rw [if_pos hf] at h
          rw [← Except.ok.inj h] at hmem
          exact Or.inl hmem
        · rw [if_neg hf] at h
          rw [← Except.ok.inj h] at hmem
          rcases List.mem_append.mp hmem with hm | hm
          · exact Or.inl hm
          · simp only [List.mem_singleton, Issue.convError.injEq] at hm
            exact Or.inr ⟨hm.1, hex.1, hex.2⟩

theorem convFold_ok_errors (cols : List String) (acc p : DataFrame × List Issue)
    (hacc : ∀ c s, Issue.convError c s ∈ acc.2 →
      c ≠ "ANNUAL_RIDERSHIP" ∧ c ≠ "LAST_MAJOR_UPDATE")
    (hok : convFold cols acc = .ok p) :
    ∀ c s, Issue.convError c s ∈ p.2 →
      c ≠ "ANNUAL_RIDERSHIP" ∧ c ≠ "LAST_MAJOR_UPDATE" := by
  induction cols generalizing acc with
  | nil =>
    rw [← Except.ok.inj hok]
    exact hacc
  | cons col rest ih =>
    unfold convFold at hok
    split at hok
    · exact Except.noConfusion hok
    · rename_i acc' heq
      refine ih acc' ?_ hok
      intro c s hmem
      rcases convStep_ok_issues acc col acc' heq c s hmem with hm | ⟨rfl, h1, h2⟩
      · exact hacc c s hm
      · exact ⟨h1, h2⟩

/-! ## Row-filtering lemmas -/

theorem applyMask_map_filter (p : Cell → Bool) (c : Col) :
    applyMask (c.map p) c = c.filter p := by
  induction c with
  | nil => rfl
  | cons x r ih =>
    by_cases hx : p x
    · simp [applyMask, List.filter, hx] at ih ⊢
      exact ih
    · simp [applyMask, List.filter, hx] at ih ⊢
      exact ih

theorem applyMask_all_true (mask : List Bool) (c : Col)
    (hall : ∀ b ∈ mask, b = true) (hlen : mask.length = c.length) :
    applyMask mask c = c := by
  induction mask generalizing c with
  | nil =>
    cases c with
    | nil => rfl
    | cons x r => simp at hlen
  | cons b r ih =>
    cases c with
    | nil => simp at hlen
    | cons x s =>
      have hb : b = true := hall b (List.mem_cons_self b r)
      simp only [applyMask, List.zip_cons_cons, List.filterMap_cons, hb, if_pos rfl]
      have := ih s (fun b' hb' => hall b' (List.mem_cons_of_mem b hb'))
        (by simpa using hlen)
      simp only [applyMask] at this
      rw [this]
      simp

theorem seqMask_length (sc : Col) : (seqMask sc).length = sc.length := by
  simp [seqMask]

theorem seqMask_all_true_of_dropCount_zero (sc : Col) (h : seqDropCount sc = 0) :
    ∀ b ∈ seqMask sc, b = true := by
  intro b hb
  by_contra hbf
  have hbfalse : b = false := by
    cases b
    · rfl
    · exact absurd rfl hbf
  have : (!b) = true := by rw [hbfalse]; rfl
  have hmem : b ∈ (seqMask sc).filter (fun b => !b) := List.mem_filter.mpr ⟨hb, this⟩
  rw [List.length_eq_zero.mp h] at hmem
  exact absurd hmem (List.not_mem_nil b)

theorem dfLookup_map_snd (df : DataFrame) (g : Col → Col) (k : String) :
    dfLookup (df.map (fun p => (p.1, g p.2))) k = (dfLookup df k).map g := by
  induction df with
  | nil => rfl
  | cons p r ih =>
    by_cases hp : p.1 = k
    · simp [dfLookup, alookup, hp]
    · simp only [dfLookup, List.map_cons, alookup, hp, if_neg hp]
      exact ih

/-! ## Sequence-to-SYSTEM_ID lemmas -/

theorem headers_lookup (df : DataFrame) (k : String) :
    k ∈ headers df ↔ ∃ c, dfLookup df k = some c := by
  induction df with
  | nil => simp [headers, dfLookup, alookup]
  | cons p r ih =>
    by_cases hp : p.1 = k
    · simp [headers, dfLookup, alookup, hp]
    · simp only [headers, List.map_cons, List.mem_cons, dfLookup, alookup, if_neg hp]
      constructor
      · rintro (h | h)
        · exact absurd h.symm hp
        · exact ih.mp h
      · intro h
        exact Or.inr (ih.mpr h)

theorem phase1_seq (hs : List String) (hseq : "Sequence" ∈ hs)
    (hnoid : ¬ "SYSTEM_ID" ∈ hs) :
    alookup "Sequence" (phase1 hs COLUMN_MAPPINGS []) = some "SYSTEM_ID" := by
  have hsplit : COLUMN_MAPPINGS =
      [("CITY", ["CITY", "City"]), ("COUNTRY", ["COUNTRY", "Country"])] ++
        ("SYSTEM_ID", ["SYSTEM_ID", "Sequence"]) ::
        [("SYSTEM_NAME", ["SYSTEM_NAME", "Name"]),
         ("OPENED_YEAR", ["OPENED_YEAR"]),
         ("NUMBER_OF_LINES", ["NUMBER_OF_LINES", "Lines"]),
         ("TOTAL_MILES", ["TOTAL_MILES", "System length   miles"]),
         ("ANNUAL_RIDERSHIP", ["ANNUAL_RIDERSHIP", "Annual Ridership"]),
         ("CITY_POPULATION", ["CITY_POPULATION"]),
         ("VISITED", ["VISITED", "Ridden?"]),
         ("LAST_MAJOR_UPDATE", ["LAST_MAJOR_UPDATE", "Year of last expansion"]),
         ("STATIONS", ["Stations"]),
         ("LATITUDE", ["LATITUDE"]),
         ("LONGITUDE", ["LONGITUDE"])] := rfl
  have hfv : findVariant hs ["SYSTEM_ID", "Sequence"] = some "Sequence" := by
    simp only [findVariant]
    rw [if_neg hnoid, if_pos hseq]
  have hpre : ∀ m, phase1 hs [("SYSTEM_ID", ["SYSTEM_ID", "Sequence"])] m =
      dinsert "Sequence" "SYSTEM_ID" m := by
    intro m
    show phase1Step hs m ("SYSTEM_ID", ["SYSTEM_ID", "Sequence"]) =
      dinsert "Sequence" "SYSTEM_ID" m
    unfold phase1Step
    rw [hfv]
  unfold phase1
  rw [hsplit, List.foldl_append, List.foldl_cons]
  have hbridge : ∀ (post : List (String × List String)) (m : List (String × String)),
      List.foldl (phase1Step hs) m post = phase1 hs post m := fun _ _ => rfl
  rw [hbridge]
  rw [phase1_preserve hs _ _ "Sequence" (by decide)]
  have hstep : phase1Step hs
      (List.foldl (phase1Step hs) []
        [("CITY", ["CITY", "City"]), ("COUNTRY", ["COUNTRY", "Country"])])
      ("SYSTEM_ID", ["SYSTEM_ID", "Sequence"]) =
      dinsert "Sequence" "SYSTEM_ID"
        (List.foldl (phase1Step hs) []
          [("CITY", ["CITY", "City"]), ("COUNTRY", ["COUNTRY", "Country"])]) := by
    unfold phase1Step
    rw [hfv]
  rw [hstep, alookup_dinsert_self]

theorem buildMapping_seq (hs : List String) (hseq : "Sequence" ∈ hs)
    (hnoid : ¬ "SYSTEM_ID" ∈ hs) :
    alookup "Sequence" (buildColumnMapping hs) = some "SYSTEM_ID" := by
  unfold buildColumnMapping
  rw [phase2_preserve_bound hs _ "Sequence" (by rw [phase1_seq hs hseq hnoid]; rfl)]
  exact phase1_seq hs hseq hnoid

theorem renamed_ne_system_id (hs : List String) (hseq : "Sequence" ∈ hs)
    (hnoid : ¬ "SYSTEM_ID" ∈ hs) (h : String) (hh : h ∈ hs) (hne : ¬ h = "Sequence") :
    ¬ (alookup h (buildColumnMapping hs)).getD h = "SYSTEM_ID" := by
  intro hcon
  cases hal : alookup h (buildColumnMapping hs) with
  | none =>
    rw [hal] at hcon
    simp only [Option.getD_none] at hcon
    exact hnoid (hcon ▸ hh)
  | some v =>
    rw [hal] at hcon
    simp only [Option.getD_some] at hcon
    rw [hcon] at hal
    have hv : "SYSTEM_ID" ∈ dvalues (phase1 hs COLUMN_MAPPINGS []) :=
      alookup_mem_dvalues "Sequence" "SYSTEM_ID" _ (phase1_seq hs hseq hnoid)
    have h1 : alookup h (phase1 hs COLUMN_MAPPINGS []) = some "SYSTEM_ID" :=
      phase2_binding_val hs _ h "SYSTEM_ID" hv hal
    rcases phase1_binding hs COLUMN_MAPPINGS [] h "SYSTEM_ID" h1 with hnil | ⟨e, he, hkin, hveq⟩
    · simp [alookup] at hnil
    · have hcases : ∀ e ∈ COLUMN_MAPPINGS, "SYSTEM_ID" = e.1 →
          e.2 = ["SYSTEM_ID", "Sequence"] := by decide
      rw [hcases e he hveq] at hkin
      simp only [List.mem_cons, List.not_mem_nil, or_false] at hkin
      rcases hkin with rfl | rfl
      · exact hnoid hh
      · exact hne rfl

theorem rename_lookup_system_id (m : List (String × String)) (df0 : DataFrame)
    (hseq0 : "Sequence" ∈ headers df0)
    (hmseq : (alookup "Sequence" m).getD "Sequence" = "SYSTEM_ID")
    (hother : ∀ h ∈ headers df0, ¬ h = "Sequence" →
      ¬ (alookup h m).getD h = "SYSTEM_ID") :
    dfLookup (renameColumns m df0) "SYSTEM_ID" = dfLookup df0 "Sequence" := by
  induction df0 with
  | nil => rfl
  | cons p r ih =>
    by_cases hp : p.1 = "Sequence"
    · simp only [renameColumns, List.map_cons, dfLookup, alookup, hp, hmseq,
        if_pos rfl]
      simp
    · simp only [renameColumns, List.map_cons, dfLookup, alookup]
      rw [if_neg (hother p.1 (by simp [headers]) hp), if_neg hp]
      have hseq0' : "Sequence" ∈ headers r := by
        rcases List.mem_cons.mp hseq0 with h | h
        · exact absurd h.symm hp
        · exact h
      exact ih hseq0' (fun h' hh' hne' =>
        hother h' (List.mem_cons_of_mem p.1 hh') hne')

theorem seqFilter_headers (df : DataFrame) :
    headers (seqFilterStep df).1 = headers df := by
  unfold seqFilterStep
  cases dfLookup df "Sequence" with
  | none => rfl
  | some sc =>
    by_cases hk : 0 < seqDropCount sc
    · simp [hk, headers]
    · simp [hk]

theorem seqFilter_lookup_seq (df : DataFrame) (sc : Col)
    (hsc : dfLookup df "Sequence" = some sc) :
    dfLookup (seqFilterStep df).1 "Sequence" =
      some (sc.filter (fun c => (parseNumericCell c).isSome)) := by
  have hstep : seqFilterStep df =
      (if 0 < seqDropCount sc then
        (df.map (fun p => (p.1, applyMask (seqMask sc) p.2)),
          [Issue.seqFiltered (seqDropCount sc)])
      else (df, [])) := by
    unfold seqFilterStep
    rw [hsc]
  rw [hstep]
  by_cases hk : 0 < seqDropCount sc
  · rw [if_pos hk]
    show dfLookup (df.map (fun p => (p.1, applyMask (seqMask sc) p.2))) "Sequence" = _
    rw [dfLookup_map_snd df (applyMask (seqMask sc)) "Sequence", hsc]
    simp [seqMask, applyMask_map_filter]
  · rw [if_neg hk]
    show dfLookup df "Sequence" = _
    rw [hsc]
    have hzero : seqDropCount sc = 0 := Nat.eq_zero_of_not_pos hk
    have hall := seqMask_all_true_of_dropCount_zero sc hzero
    have : sc.filter (fun c => (parseNumericCell c).isSome) = sc := by
      apply List.filter_eq_self.mpr
      intro c hc
      exact hall ((parseNumericCell c).isSome) (List.mem_map.mpr ⟨c, hc, rfl⟩)
    rw [this]

theorem genId_skip (df1 : DataFrame) (col : Col)
    (hcol : dfLookup df1 "SYSTEM_ID" = some col) (hne : col ≠ [])
    (hnonull : ∀ c ∈ col, c.isna = false) :
    generate_system_id_if_missing df1 = df1 := by
  unfold generate_system_id_if_missing
  rw [hcol]
  have hall : col.all Cell.isna = false := by
    cases col with
    | nil => exact absurd rfl hne
    | cons x xs =>
      simp [List.all_cons, hnonull x (List.mem_cons_self x xs)]
  simp [hall]

theorem lookup_map_replace (df : DataFrame) (n : String) (c : Col) (k : String)
    (hk : ¬ n = k) :
    alookup k (df.map (fun p => if p.1 = n then (p.1, c) else p)) = alookup k df := by
  induction df with
  | nil => rfl
  | cons p r ih =>
    by_cases hp : p.1 = n
    · simp only [List.map_cons, if_pos hp, alookup]
      rw [if_neg (by rw [hp]; exact hk), if_neg (by rw [hp]; exact hk), ih]
    · simp only [List.map_cons, if_neg hp, alookup]
      by_cases hpk : p.1 = k
      · rw [if_pos hpk, if_pos hpk]
      · rw [if_neg hpk, if_neg hpk, ih]

theorem alookup_append_single_ne {α : Type} (m : List (String × α)) (n k : String)
    (v : α) (hk : ¬ n = k) : alookup k (m ++ [(n, v)]) = alookup k m := by
  induction m with
  | nil => simp [alookup, hk]
  | cons p r ih =>
    by_cases hp : p.1 = k
    · simp [alookup, hp]
    · simp only [List.cons_append, alookup, if_neg hp]
      exact ih

theorem setCol_lookup_ne (df : DataFrame) (n : String) (c : Col) (k : String)
    (hk : ¬ n = k) : dfLookup (setCol df n c) k = dfLookup df k := by
  unfold setCol
  by_cases hp : (dfLookup df n).isSome
  · rw [if_pos hp]
    exact lookup_map_replace df n c k hk
  · rw [if_neg hp]
    exact alookup_append_single_ne df n k c hk

theorem convStep_ok_lookup (acc : DataFrame × List Issue) (col : String)
    (acc' : DataFrame × List Issue) (k : String) (hk : ¬ col = k)
    (h : convStep acc col = .ok acc') :
    dfLookup acc'.1 k = dfLookup acc.1 k := by
  unfold convStep at h
  split at h
  · rw [← Except.ok.inj h]
  · split at h
    · exact Except.noConfusion h
    · rename_i cells _ p _
      by_cases hex : col = "ANNUAL_RIDERSHIP" ∨ col = "LAST_MAJOR_UPDATE"
      · rw [if_pos hex] at h
        rw [← Except.ok.inj h]
        exact setCol_lookup_ne acc.1 col _ k hk
      · rw [if_neg hex] at h
        by_cases hf : p.2 = []
        · rw [if_pos hf] at h
          rw [← Except.ok.inj h]
          exact setCol_lookup_ne acc.1 col _ k hk
        · rw [if_neg hf] at h
          rw [← Except.ok.inj h]
          exact setCol_lookup_ne acc.1 col _ k hk

theorem convFold_ok_lookup (cols : List String) (acc p : DataFrame × List Issue)
    (k : String) (hk : ∀ c ∈ cols, ¬ c = k) (hok : convFold cols acc = .ok p) :
    dfLookup p.1 k = dfLookup acc.1 k := by
  induction cols generalizing acc with
  | nil => rw [← Except.ok.inj hok]
  | cons col rest ih =>
    unfold convFold at hok
    split at hok
    · exact Except.noConfusion hok
    · rename_i acc' heq
      rw [ih acc' (fun c hc => hk c (List.mem_cons_of_mem col hc)) hok]
      exact convStep_ok_lookup acc col acc' k (hk col (List.mem_cons_self col rest)) heq

/-! ## Character-level lemmas for the extraction proofs -/

theorem digit_ne_char (c d : Char) (hc : c.isDigit = true) (hd : d.isDigit = false) :
    ¬ c = d := by
  intro h
  rw [h, hd] at hc
  exact Bool.false_ne_true hc

theorem digit_not_ws (c : Char) (hc : c.isDigit = true) : c.isWhitespace = false := by
  have h1 : ¬ c = ' ' := digit_ne_char c ' ' hc (by decide)
  have h2 : ¬ c = '\t' := digit_ne_char c '\t' hc (by decide)
  have h3 : ¬ c = '\r' := digit_ne_char c '\r' hc (by decide)
  have h4 : ¬ c = '\n' := digit_ne_char c '\n' hc (by decide)
  simp [Char.isWhitespace, h1, h2, h3, h4]

theorem dropWhile_cons_false {α : Type} (p : α → Bool) (c : α) (r : List α)
    (hc : p c = false) : (c :: r).dropWhile p = c :: r := by
  simp [List.dropWhile, hc]

theorem dropWhile_all_false {α : Type} (p : α → Bool) (l : List α)
    (h : ∀ c ∈ l, p c = false) : l.dropWhile p = l := by
  cases l with
  | nil => rfl
  | cons c r => exact dropWhile_cons_false p c r (h c (List.mem_cons_self c r))

theorem dropWhile_all_true {α : Type} (p : α → Bool) (l : List α)
    (h : ∀ c ∈ l, p c = true) : l.dropWhile p = [] := by
  induction l with
  | nil => rfl
  | cons c r ih =>
    simp [List.dropWhile, h c (List.mem_cons_self c r),
      ih (fun c' hc' => h c' (List.mem_cons_of_mem c hc'))]

theorem commaGroups_cons_ne (c : Char) (r : List Char) (h : ¬ c = ',') :
    commaGroups (c :: r) = ([], c :: r) := by
  rw [commaGroups.eq_def]
  split
  · rename_i heq
    exact absurd heq (by simp)
  · rw [if_neg (by rename_i c' r' heq; injection heq with h1 h2; rw [← h1]; exact h)]
    rename_i c' r' heq
    injection heq with h1 h2
    rw [h1, h2]

theorem fracAt_cons_ne (c : Char) (r : List Char) (h : ¬ c = '.') :
    fracAt (c :: r) = [] := by
  rw [fracAt.eq_def]
  split
  · rfl
  · rw [if_neg (by rename_i c' r' heq; injection heq with h1 h2; rw [← h1]; exact h)]

theorem takeWhile_all_true {α : Type} (p : α → Bool) (l : List α)
    (h : ∀ c ∈ l, p c = true) : l.takeWhile p = l := by
  induction l with
  | nil => rfl
  | cons c r ih =>
    rw [List.takeWhile_cons, h c (List.mem_cons_self c r)]
    simp [ih (fun c' hc' => h c' (List.mem_cons_of_mem c hc'))]

theorem trimWhile_all_false (p : Char → Bool) (l : List Char)
    (h : ∀ c ∈ l, p c = false) : trimWhile p l = l := by
  unfold trimWhile
  rw [dropWhile_all_false p l h,
    dropWhile_all_false p l.reverse (fun c hc => h c (List.mem_reverse.mp hc)),
    List.reverse_reverse]

theorem takeWhile_append_stop {α : Type} (p : α → Bool) (l1 : List α) (x : α)
    (t : List α) (h1 : ∀ c ∈ l1, p c = true) (hx : p x = false) :
    (l1 ++ x :: t).takeWhile p = l1 ∧ (l1 ++ x :: t).dropWhile p = x :: t := by
  induction l1 with
  | nil => simp [List.takeWhile_cons, List.dropWhile, hx]
  | cons c r ih =>
    have hc : p c = true := h1 c (List.mem_cons_self c r)
    have := ih (fun c' hc' => h1 c' (List.mem_cons_of_mem c hc'))
    simp only [List.cons_append, List.takeWhile_cons, List.dropWhile, hc, if_pos rfl]
    simp [this.1, this.2]

theorem token_heads : ∀ s ∈ NULL_TOKENS,
    ((s.data.head?.map Char.isDigit).getD false) = false := by
  decide

theorem digit_head_not_token (c : Char) (r : List Char) (hc : c.isDigit = true) :
    ¬ (⟨c :: r⟩ : String) ∈ NULL_TOKENS := by
  intro hmem
  have := token_heads ⟨c :: r⟩ hmem
  simp at this
  rw [this] at hc
  exact Bool.false_ne_true hc

theorem stripParensF_no_paren (f : ℕ) (l : List Char) (h : ∀ c ∈ l, ¬ c = '(') :
    stripParensF f l = l := by
  induction f generalizing l with
  | zero => rfl
  | succ f ih =>
    cases l with
    | nil => rfl
    | cons c r =>
      simp only [stripParensF]
      rw [if_neg (h c (List.mem_cons_self c r)),
        ih r (fun c' hc' => h c' (List.mem_cons_of_mem c hc'))]

theorem stripParens_no_paren (l : List Char) (h : ∀ c ∈ l, ¬ c = '(') :
    stripParens l = l := stripParensF_no_paren (l.length + 1) l h

/-- The numeric pattern at a position whose first four characters are digits
matches exactly the first three. -/
theorem numAt_four_digits (c1 c2 c3 c4 : Char) (rest : List Char)
    (h1 : c1.isDigit = true) (h2 : c2.isDigit = true) (h3 : c3.isDigit = true)
    (h4 : c4.isDigit = true) :
    numAt (c1 :: c2 :: c3 :: c4 :: rest) = some [c1, c2, c3] := by
  have hsign : ¬ (c1 = '+' ∨ c1 = '-') := by
    rintro (h | h)
    · exact digit_ne_char c1 '+' h1 (by decide) h
    · exact digit_ne_char c1 '-' h1 (by decide) h
  simp only [numAt]
  rw [if_neg hsign]
  unfold numAtCore
  rw [List.takeWhile_cons, h1, List.takeWhile_cons, h2, List.takeWhile_cons, h3,
    List.takeWhile_cons, h4]
  simp only [if_pos rfl, List.take, ite_true]
  have hd3 : ([c1, c2, c3] : List Char) ≠ [] := by simp
  rw [if_neg hd3]
  have hdrop : (c1 :: c2 :: c3 :: c4 :: rest).drop ([c1, c2, c3] : List Char).length =
      c4 :: rest := by simp
  have hcomma : commaGroups (c4 :: rest) = ([], c4 :: rest) :=
    commaGroups_cons_ne c4 rest (digit_ne_char c4 ',' h4 (by decide))
  have hfrac : fracAt (c4 :: rest) = [] :=
    fracAt_cons_ne c4 rest (digit_ne_char c4 '.' h4 (by decide))
  simp only [hdrop, hcomma, hfrac]
  simp

/-- The numeric pattern at a position holding one to three digits followed by
a non-digit, non-comma, non-dot character matches exactly those digits. -/
theorem numAt_short_digits (ds : List Char) (x : Char) (t : List Char)
    (hds : ∀ c ∈ ds, c.isDigit = true) (hne : ds ≠ []) (hlen : ds.length ≤ 3)
    (hxd : x.isDigit = false) (hxc : ¬ x = ',') (hxdot : ¬ x = '.') :
    numAt (ds ++ x :: t) = some ds := by
  have hsign : ¬ (ds.headI = '+' ∨ ds.headI = '-') := by
    have hh : ds.headI.isDigit = true := by
      cases ds with
      | nil => exact absurd rfl hne
      | cons c r => exact hds c (List.mem_cons_self c r)
    rintro (h | h)
    · exact digit_ne_char ds.headI '+' hh (by decide) h
    · exact digit_ne_char ds.headI '-' hh (by decide) h
  have htw := takeWhile_append_stop Char.isDigit ds x t hds hxd
  have hcore : numAtCore (ds ++ x :: t) = some ds := by
    unfold numAtCore
    rw [htw.1, List.take_of_length_le hlen]
    rw [if_neg hne]
    have hdrop : (ds ++ x :: t).drop ds.length = x :: t := by
      rw [List.drop_left]
    have hcomma : commaGroups (x :: t) = ([], x :: t) := commaGroups_cons_ne x t hxc
    have hfrac : fracAt (x :: t) = [] := fracAt_cons_ne x t hxdot
    simp only [hdrop, hcomma, hfrac]
    simp
  cases ds with
  | nil => exact absurd rfl hne
  | cons c r =>
    simp only [List.cons_append, numAt]
    rw [if_neg (by simpa using hsign)]
    simpa using hcore

/-- Parse a pure digit string: the Python float value is its numeric value. -/
theorem pyFloatParse_digits (ds : List Char) (hds : ∀ c ∈ ds, c.isDigit = true)
    (hne : ds ≠ []) : pyFloatParse ⟨ds⟩ = some ((digitsToNat ds : ℚ)) := by
  unfold pyFloatParse
  have hdata : (⟨ds⟩ : String).data = ds := rfl
  rw [hdata, trimWhile_all_false Char.isWhitespace ds
    (fun c hc => digit_not_ws c (hds c hc))]
  have hh : ds.headI.isDigit = true := by
    cases ds with
    | nil => exact absurd rfl hne
    | cons c r => exact hds c (List.mem_cons_self c r)
  cases ds with
  | nil => exact absurd rfl hne
  | cons c r =>
    simp only [pyFloatParseL]
    have hc : c.isDigit = true := hds c (List.mem_cons_self c r)
    rw [if_neg (digit_ne_char c '+' hc (by decide)),
      if_neg (digit_ne_char c '-' hc (by decide))]
    unfold pyFloatCore
    rw [takeWhile_all_true Char.isDigit (c :: r) hds,
      dropWhile_all_true Char.isDigit (c :: r) hds]
    have hsf : splitFrac ([] : List Char) = ([], []) := rfl
    rw [hsf]
    rw [if_neg (by simp)]
    have hpe : parseExp ([] : List Char) = some (0, []) := rfl
    rw [hpe]
    simp only [pyFloatFinish]
    simp [Rat.mkRat_one]

/-! ## Branch-level extraction lemmas -/

theorem all_digits_cons4 (c1 c2 c3 c4 : Char) (rest : List Char)
    (h1 : c1.isDigit = true) (h2 : c2.isDigit = true) (h3 : c3.isDigit = true)
    (h4 : c4.isDigit = true) (hrest : ∀ c ∈ rest, c.isDigit = true) :
    ∀ c ∈ c1 :: c2 :: c3 :: c4 :: rest, c.isDigit = true := by
  intro c hc
  simp only [List.mem_cons] at hc
  rcases hc with rfl | rfl | rfl | rfl | hc
  · exact h1
  · exact h2
  · exact h3
  · exact h4
  · exact hrest c hc

theorem all_digits_three (c1 c2 c3 : Char)
    (h1 : c1.isDigit = true) (h2 : c2.isDigit = true) (h3 : c3.isDigit = true) :
    ∀ c ∈ ([c1, c2, c3] : List Char), c.isDigit = true := by
  intro c hc
  simp only [List.mem_cons, List.not_mem_nil, or_false] at hc
  rcases hc with rfl | rfl | rfl
  · exact h1
  · exact h2
  · exact h3

theorem dropCommas_digits (g : List Char) (h : ∀ c ∈ g, c.isDigit = true) :
    dropCommas g = ⟨g⟩ := by
  unfold dropCommas
  congr 1
  apply List.filter_eq_self.mpr
  intro a ha
  simpa using digit_ne_char a ',' (h a ha) (by decide)

theorem numSearch_four_digits (c1 c2 c3 c4 : Char) (rest : List Char)
    (h1 : c1.isDigit = true) (h2 : c2.isDigit = true) (h3 : c3.isDigit = true)
    (h4 : c4.isDigit = true) :
    numSearch (c1 :: c2 :: c3 :: c4 :: rest) = some [c1, c2, c3] := by
  unfold numSearch
  simp only [scanSearch, numAt_four_digits c1 c2 c3 c4 rest h1 h2 h3 h4]

theorem genericExtract_digits (c1 c2 c3 c4 : Char) (rest : List Char)
    (h1 : c1.isDigit = true) (h2 : c2.isDigit = true) (h3 : c3.isDigit = true)
    (h4 : c4.isDigit = true) (hrest : ∀ c ∈ rest, c.isDigit = true) :
    genericExtract (c1 :: c2 :: c3 :: c4 :: rest) = some ⟨[c1, c2, c3]⟩ := by
  have hall := all_digits_cons4 c1 c2 c3 c4 rest h1 h2 h3 h4 hrest
  unfold genericExtract
  rw [stripParens_no_paren _ (fun c hc => digit_ne_char c '(' (hall c hc) (by decide)),
    numSearch_four_digits c1 c2 c3 c4 rest h1 h2 h3 h4]
  simp [dropCommas_digits [c1, c2, c3] (all_digits_three c1 c2 c3 h1 h2 h3)]

theorem milesExtract_digits (c1 c2 c3 c4 : Char) (rest : List Char)
    (h1 : c1.isDigit = true) (h2 : c2.isDigit = true) (h3 : c3.isDigit = true)
    (h4 : c4.isDigit = true) (hrest : ∀ c ∈ rest, c.isDigit = true) :
    milesExtract (c1 :: c2 :: c3 :: c4 :: rest) = some ⟨[c1, c2, c3]⟩ := by
  have hall := all_digits_cons4 c1 c2 c3 c4 rest h1 h2 h3 h4 hrest
  unfold milesExtract
  have hmap : (c1 :: c2 :: c3 :: c4 :: rest).map
      (fun c => if c = '\xA0' then ' ' else c) = c1 :: c2 :: c3 :: c4 :: rest := by
    have := List.map_congr_left (l := c1 :: c2 :: c3 :: c4 :: rest)
      (f := fun c => if c = '\xA0' then ' ' else c) (g := id)
      (fun c hc => by
        simp only [id]
        rw [if_neg (digit_ne_char c '\xA0' (hall c hc) (by decide))])
    rw [this, List.map_id]
  rw [hmap]
  have hpn : parenNumAt (c1 :: c2 :: c3 :: c4 :: rest) = some [c1, c2, c3] := by
    simp only [parenNumAt]
    rw [if_neg (digit_ne_char c1 '(' h1 (by decide)),
      dropWhile_cons_false Char.isWhitespace c1 _ (digit_not_ws c1 h1),
      numAt_four_digits c1 c2 c3 c4 rest h1 h2 h3 h4]
  have hps : parenUnitSearch (c1 :: c2 :: c3 :: c4 :: rest) = some [c1, c2, c3] := by
    unfold parenUnitSearch
    simp only [scanSearch, hpn]
  simp only [hps]
  simp [dropCommas_digits [c1, c2, c3] (all_digits_three c1 c2 c3 h1 h2 h3)]

theorem mmGroupAt_digits (w : List Char) (hw : w ≠ []) (l : List Char)
    (hl : ∀ c ∈ l, c.isDigit = true) : mmGroupAt w l = none := by
  cases w with
  | nil => exact absurd rfl hw
  | cons w0 wr =>
    cases l with
    | nil =>
      unfold mmGroupAt
      simp
    | cons c r =>
      have hrun : (c :: r).takeWhile isDigitOrComma = c :: r := by
        apply takeWhile_all_true
        intro c' hc'
        simp [isDigitOrComma, hl c' hc']
      have hpre : (w0 :: wr).isPrefixOf
          ((((dotPartAt ([] : List Char)).2).dropWhile Char.isWhitespace).map Char.toLower) =
          false := rfl
      simp only [mmGroupAt, hrun, List.drop_length]
      rw [if_neg (List.cons_ne_nil c r)]
      rw [hpre]
      simp

theorem mmSearch_digits (w : List Char) (hw : w ≠ []) (l : List Char)
    (hl : ∀ c ∈ l, c.isDigit = true) : mmSearch w l = none := by
  induction l with
  | nil =>
    unfold mmSearch
    simp only [scanSearch]
    exact mmGroupAt_digits w hw [] hl
  | cons c r ih =>
    unfold mmSearch at ih ⊢
    simp only [scanSearch, mmGroupAt_digits w hw (c :: r) hl]
    exact ih (fun c' hc' => hl c' (List.mem_cons_of_mem c hc'))

theorem ridershipExtract_digits (c1 c2 c3 c4 : Char) (rest : List Char)
    (h1 : c1.isDigit = true) (h2 : c2.isDigit = true) (h3 : c3.isDigit = true)
    (h4 : c4.isDigit = true) (hrest : ∀ c ∈ rest, c.isDigit = true) :
    ridershipExtract (c1 :: c2 :: c3 :: c4 :: rest) = .ok (some ⟨[c1, c2, c3]⟩) := by
  have hall := all_digits_cons4 c1 c2 c3 c4 rest h1 h2 h3 h4 hrest
  simp only [ridershipExtract,
    mmSearch_digits "billion".data (by decide) _ hall,
    mmSearch_digits "million".data (by decide) _ hall,
    stripParens_no_paren _ (fun c hc => digit_ne_char c '(' (hall c hc) (by decide)),
    numSearch_four_digits c1 c2 c3 c4 rest h1 h2 h3 h4]
  simp [dropCommas_digits [c1, c2, c3] (all_digits_three c1 c2 c3 h1 h2 h3)]

/-- Reduce a coerceCell call whose branch extraction succeeds. -/
theorem coerceCell_ok_of_branch (col : String) (c : Cell) (os : Option String)
    (hnot : ¬ astypeStr c ∈ NULL_TOKENS)
    (hb : branchExtract col (pyStrip (astypeStr c)).data = .ok os) :
    coerceCell col c = .ok (os.bind pyFloatParse) := by
  unfold coerceCell
  rw [if_neg hnot, hb]

/-- Coercing a TOTAL_MILES cell of the shape `DIGITS UNIT` — at most three
digits, a space, a two-letter unit token — yields exactly the numeric value
of the digits, whatever the unit token is. -/
theorem coerce_miles_unit (ds : List Char) (hds : ∀ c ∈ ds, c.isDigit = true)
    (hne : ds ≠ []) (hlen : ds.length ≤ 3) (u1 u2 : Char)
    (hu1 : ¬ u1 = '\xA0') (hu2 : ¬ u2 = '\xA0') (hu2w : u2.isWhitespace = false) :
    coerceCell "TOTAL_MILES" (Cell.str ⟨ds ++ [' ', u1, u2]⟩) =
      .ok (some ((digitsToNat ds : ℚ))) := by
  cases ds with
  | nil => exact absurd rfl hne
  | cons d dr =>
    have hd : d.isDigit = true := hds d (List.mem_cons_self d dr)
    have hl : (d :: dr) ++ [' ', u1, u2] = d :: (dr ++ [' ', u1, u2]) := by simp
    have hnotok : ¬ (⟨(d :: dr) ++ [' ', u1, u2]⟩ : String) ∈ NULL_TOKENS := by
      rw [hl]
      exact digit_head_not_token d _ hd
    have hdata : (⟨(d :: dr) ++ [' ', u1, u2]⟩ : String).data =
        (d :: dr) ++ [' ', u1, u2] := rfl
    have hstrip : pyStrip ⟨(d :: dr) ++ [' ', u1, u2]⟩ =
        ⟨(d :: dr) ++ [' ', u1, u2]⟩ := by
      unfold pyStrip
      rw [hdata]
      unfold trimWhile
      rw [hl, dropWhile_cons_false Char.isWhitespace d _ (digit_not_ws d hd), ← hl]
      have hrev : ((d :: dr) ++ [' ', u1, u2]).reverse =
          u2 :: u1 :: ' ' :: (d :: dr).reverse := by
        simp
      rw [hrev, dropWhile_cons_false Char.isWhitespace u2 _ hu2w, ← hrev,
        List.reverse_reverse]
    have hbr : branchExtract "TOTAL_MILES" ((d :: dr) ++ [' ', u1, u2]) =
        .ok (milesExtract ((d :: dr) ++ [' ', u1, u2])) := by
      unfold branchExtract
      rw [if_neg (by decide), if_pos (Or.inl rfl)]
    have hmap : ((d :: dr) ++ [' ', u1, u2]).map
        (fun c => if c = '\xA0' then ' ' else c) = (d :: dr) ++ [' ', u1, u2] := by
      have := List.map_congr_left (l := (d :: dr) ++ [' ', u1, u2])
        (f := fun c => if c = '\xA0' then ' ' else c) (g := id)
        (fun c hc => by
          simp only [id]
          rcases List.mem_append.mp hc with hcl | hcr
          · exact if_neg (digit_ne_char c '\xA0' (hds c hcl) (by decide))
          · simp only [List.mem_cons, List.not_mem_nil, or_false] at hcr
            rcases hcr with rfl | rfl | rfl
            · exact if_neg (by decide)
            · exact if_neg hu1
            · exact if_neg hu2)
      rw [this, List.map_id]
    have hnum : numAt ((d :: dr) ++ [' ', u1, u2]) = some (d :: dr) :=
      numAt_short_digits (d :: dr) ' ' [u1, u2] hds hne hlen (by decide)
        (by decide) (by decide)
    have hpn : parenNumAt ((d :: dr) ++ [' ', u1, u2]) = some (d :: dr) := by
      rw [hl]
      simp only [parenNumAt]
      rw [if_neg (digit_ne_char d '(' hd (by decide)),
        dropWhile_cons_false Char.isWhitespace d _ (digit_not_ws d hd), ← hl]
      exact hnum
    have hps : parenUnitSearch ((d :: dr) ++ [' ', u1, u2]) = some (d :: dr) := by
      unfold parenUnitSearch
      rw [hl]
      simp only [scanSearch]
      rw [← hl, hpn]
    have hbr2 : branchExtract "TOTAL_MILES"
        (pyStrip (astypeStr (Cell.str ⟨(d :: dr) ++ [' ', u1, u2]⟩))).data =
        .ok (milesExtract ((d :: dr) ++ [' ', u1, u2])) := by
      simp only [astypeStr]
      rw [hstrip, hdata]
      exact hbr
    rw [coerceCell_ok_of_branch "TOTAL_MILES" (Cell.str ⟨(d :: dr) ++ [' ', u1, u2]⟩)
      (milesExtract ((d :: dr) ++ [' ', u1, u2])) (by simpa [astypeStr] using hnotok) hbr2]
    unfold milesExtract
    simp only [hmap, hps]
    refine congrArg Except.ok ?_
    show pyFloatParse (dropCommas (d :: dr)) = some ((digitsToNat (d :: dr) : ℚ))
    rw [dropCommas_digits (d :: dr) hds]
    exact pyFloatParse_digits (d :: dr) hds hne

/-- C9: coercing ["1,234"] for TOTAL_MILES yields ([1234.0], []) — the
thousands separator is removed — and a unit suffix is detected but never
converted: a digit run suffixed " km" and the same run suffixed " mi" both
coerce to the bare numeric value of the digits. -/
theorem c9_total_miles (ds : List Char) (hds : ∀ c ∈ ds, c.isDigit = true)
    (hne : ds ≠ []) (hlen : ds.length ≤ 3) :
    robust_to_numeric [Cell.str "1,234"] "TOTAL_MILES" = .ok ([some 1234], []) ∧
    coerceCell "TOTAL_MILES" (Cell.str ⟨ds ++ [' ', 'k', 'm']⟩) =
      .ok (some ((digitsToNat ds : ℚ))) ∧
    coerceCell "TOTAL_MILES" (Cell.str ⟨ds ++ [' ', 'm', 'i']⟩) =
      .ok (some ((digitsToNat ds : ℚ))) :=
  ⟨by rfl,
    coerce_miles_unit ds hds hne hlen 'k' 'm' (by decide) (by decide) (by decide),
    coerce_miles_unit ds hds hne hlen 'm' 'i' (by decide) (by decide) (by decide)⟩

/-- Witness for C9 at the digit run "250". -/
theorem c9_total_miles_witness :
    ((∀ c ∈ (['2', '5', '0'] : List Char), c.isDigit = true) ∧
      (['2', '5', '0'] : List Char) ≠ [] ∧ (['2', '5', '0'] : List Char).length ≤ 3) ∧
    robust_to_numeric [Cell.str "1,234"] "TOTAL_MILES" = .ok ([some 1234], []) ∧
    coerceCell "TOTAL_MILES" (Cell.str "250 km") = .ok (some 250) ∧
    coerceCell "TOTAL_MILES" (Cell.str "250 mi") = .ok (some 250) := by
  have h := c9_total_miles ['2', '5', '0'] (by decide) (by decide) (by decide)
  have hval : ((digitsToNat ['2', '5', '0'] : ℚ)) = 250 := by decide
  refine ⟨by decide, h.1, ?_, ?_⟩
  · rw [← hval]
    exact h.2.1
  · rw [← hval]
    exact h.2.2

/-- C2: a cell whose string form is an unbroken run of more than three
digits is coerced to the number formed by its first three digits, in the
generic branch (STATIONS, CITY_POPULATION, NUMBER_OF_LINES, OPENED_YEAR),
the TOTAL_MILES/LATITUDE/LONGITUDE branch and the ANNUAL_RIDERSHIP branch;
in particular the integer cell 8800000 under CITY_POPULATION becomes 880. -/
theorem c2_three_digit_truncation (c1 c2 c3 c4 : Char) (rest : List Char)
    (h1 : c1.isDigit = true) (h2 : c2.isDigit = true) (h3 : c3.isDigit = true)
    (h4 : c4.isDigit = true) (hrest : ∀ c ∈ rest, c.isDigit = true) :
    (∀ col ∈ (["STATIONS", "CITY_POPULATION", "NUMBER_OF_LINES", "OPENED_YEAR",
        "TOTAL_MILES", "LATITUDE", "LONGITUDE", "ANNUAL_RIDERSHIP"] : List String),
      coerceCell col (Cell.str ⟨c1 :: c2 :: c3 :: c4 :: rest⟩) =
        .ok (some ((digitsToNat [c1, c2, c3] : ℚ)))) ∧
    coerceCell "CITY_POPULATION" (Cell.intv 8800000) = .ok (some 880) := by
  have hall := all_digits_cons4 c1 c2 c3 c4 rest h1 h2 h3 h4 hrest
  have hnotok : ¬ (⟨c1 :: c2 :: c3 :: c4 :: rest⟩ : String) ∈ NULL_TOKENS :=
    digit_head_not_token c1 _ h1
  have hdata : (⟨c1 :: c2 :: c3 :: c4 :: rest⟩ : String).data =
      c1 :: c2 :: c3 :: c4 :: rest := rfl
  have hstrip : pyStrip ⟨c1 :: c2 :: c3 :: c4 :: rest⟩ =
      ⟨c1 :: c2 :: c3 :: c4 :: rest⟩ := by
    unfold pyStrip
    rw [hdata, trimWhile_all_false _ _ (fun c hc => digit_not_ws c (hall c hc))]
  have hparse := pyFloatParse_digits [c1, c2, c3]
    (all_digits_three c1 c2 c3 h1 h2 h3) (by simp)
  have hcc : ∀ col os, branchExtract col (c1 :: c2 :: c3 :: c4 :: rest) = .ok os →
      coerceCell col (Cell.str ⟨c1 :: c2 :: c3 :: c4 :: rest⟩) =
        .ok (os.bind pyFloatParse) := by
    intro col os hb
    refine coerceCell_ok_of_branch col _ os (by simpa [astypeStr] using hnotok) ?_
    simp only [astypeStr]
    rw [hstrip, hdata]
    exact hb
  have hG : ∀ col, ¬ col = "ANNUAL_RIDERSHIP" →
      ¬ (col = "TOTAL_MILES" ∨ col = "LATITUDE" ∨ col = "LONGITUDE") →
      ¬ col = "LAST_MAJOR_UPDATE" →
      branchExtract col (c1 :: c2 :: c3 :: c4 :: rest) =
        .ok (genericExtract (c1 :: c2 :: c3 :: c4 :: rest)) := by
    intro col hA hM hL
    unfold branchExtract
    rw [if_neg hA, if_neg hM, if_neg hL]
  have hM : ∀ col, ¬ col = "ANNUAL_RIDERSHIP" →
      (col = "TOTAL_MILES" ∨ col = "LATITUDE" ∨ col = "LONGITUDE") →
      branchExtract col (c1 :: c2 :: c3 :: c4 :: rest) =
        .ok (milesExtract (c1 :: c2 :: c3 :: c4 :: rest)) := by
    intro col hA hMm
    unfold branchExtract
    rw [if_neg hA, if_pos hMm]
  refine ⟨?_, by rfl⟩
  intro col hcol
  simp only [List.mem_cons, List.not_mem_nil, or_false] at hcol
  rcases hcol with rfl | rfl | rfl | rfl | rfl | rfl | rfl | rfl
  · rw [hcc _ _ ((hG _ (by decide) (by decide) (by decide)).trans
      (congrArg Except.ok (genericExtract_digits c1 c2 c3 c4 rest h1 h2 h3 h4 hrest)))]
    exact congrArg Except.ok hparse
  · rw [hcc _ _ ((hG _ (by decide) (by decide) (by decide)).trans
      (congrArg Except.ok (genericExtract_digits c1 c2 c3 c4 rest h1 h2 h3 h4 hrest)))]
    exact congrArg Except.ok hparse
  · rw [hcc _ _ ((hG _ (by decide) (by decide) (by decide)).trans
      (congrArg Except.ok (genericExtract_digits c1 c2 c3 c4 rest h1 h2 h3 h4 hrest)))]
    exact congrArg Except.ok hparse
  · rw [hcc _ _ ((hG _ (by decide) (by decide) (by decide)).trans
      (congrArg Except.ok (genericExtract_digits c1 c2 c3 c4 rest h1 h2 h3 h4 hrest)))]
    exact congrArg Except.ok hparse
  · rw [hcc _ _ ((hM _ (by decide) (by decide)).trans
      (congrArg Except.ok (milesExtract_digits c1 c2 c3 c4 rest h1 h2 h3 h4 hrest)))]
    exact congrArg Except.ok hparse
  · rw [hcc _ _ ((hM _ (by decide) (by decide)).trans
      (congrArg Except.ok (milesExtract_digits c1 c2 c3 c4 rest h1 h2 h3 h4 hrest)))]
    exact congrArg Except.ok hparse
  · rw [hcc _ _ ((hM _ (by decide) (by decide)).trans
      (congrArg Except.ok (milesExtract_digits c1 c2 c3 c4 rest h1 h2 h3 h4 hrest)))]
    exact congrArg Except.ok hparse
  · have hb : branchExtract "ANNUAL_RIDERSHIP" (c1 :: c2 :: c3 :: c4 :: rest) =
        .ok (some ⟨[c1, c2, c3]⟩) := by
      unfold branchExtract
      rw [if_pos rfl]
      exact ridershipExtract_digits c1 c2 c3 c4 rest h1 h2 h3 h4 hrest
    rw [hcc _ _ hb]
    exact congrArg Except.ok hparse

/-- Witness for C2 at the concrete cell "12345" under STATIONS. -/
theorem c2_three_digit_truncation_witness :
    ('1'.isDigit = true ∧ '2'.isDigit = true ∧ '3'.isDigit = true ∧
      '4'.isDigit = true ∧ (∀ c ∈ (['5'] : List Char), c.isDigit = true)) ∧
    coerceCell "STATIONS" (Cell.str "12345") = .ok (some 123) ∧
    coerceCell "CITY_POPULATION" (Cell.intv 8800000) = .ok (some 880) := by
  have h := c2_three_digit_truncation '1' '2' '3' '4' ['5'] (by decide) (by decide)
    (by decide) (by decide) (by decide)
  refine ⟨by decide, ?_, h.2⟩
  have h5 := h.1 "STATIONS" (by decide)
  have hval : ((digitsToNat ['1', '2', '3'] : ℚ)) = 123 := by decide
  rw [← hval]
  exact h5

/-- C1, counterexample: the claim "the output mapping never contains an
ignore-list header as a key" is false: the ignore-list header "City" is also
a known variant of CITY, and the variant-lookup phase runs before the
ignore-list check, so a frame whose only header is "City" gets the mapping
entry "City" to CITY. -/
theorem c1_counterexample :
    "City" ∈ IGNORE_COLUMNS ∧
      alookup "City" (buildColumnMapping ["City"]) = some "CITY" := by
  decide

/-- C1 (amended): a header on the ignore list that is not also a known
variant (every ignore-list entry except "City") is never a key of the
mapping produced by column normalization. -/
theorem c1_ignored_header_unmapped (hs : List String) (h : String)
    (hmem : h ∈ IGNORE_COLUMNS) (hne : h ≠ "City") :
    alookup h (buildColumnMapping hs) = none := by
  have key : ∀ e ∈ COLUMN_MAPPINGS, ¬ h ∈ e.2 := by
    have hall : ∀ x ∈ IGNORE_COLUMNS, x = "City" ∨ ∀ e ∈ COLUMN_MAPPINGS, ¬ x ∈ e.2 := by
      decide
    rcases hall h hmem with h1 | h2
    · exact absurd h1 hne
    · exact h2
  unfold buildColumnMapping
  rw [phase2_preserve_ignored hs (phase1 hs COLUMN_MAPPINGS []) h hmem,
    phase1_preserve hs COLUMN_MAPPINGS [] h key]
  rfl

/-- Witness for the amended C1 at a concrete header list and header. -/
theorem c1_ignored_header_unmapped_witness :
    "Continent" ∈ IGNORE_COLUMNS ∧ "Continent" ≠ "City" ∧
      alookup "Continent" (buildColumnMapping ["Continent", "CITY"]) = none :=
  ⟨by decide, by decide,
    c1_ignored_header_unmapped ["Continent", "CITY"] "Continent" (by decide) (by decide)⟩

/-- C3, counterexample: coercing the single-cell column ["N/A"] for
NUMBER_OF_LINES does not yield an empty failing-values sample. -/
theorem c3_counterexample :
    ¬ robust_to_numeric [Cell.str "N/A"] "NUMBER_OF_LINES" =
      .ok ([none], ([] : List Cell)) := by
  intro h
  exact absurd (Except.ok.inj h) (by decide)

/-- C3 (amended): "N/A" is not on the null-like token list, so it coerces to
null and is reported as a failing value:
coerce_column(["N/A"], "NUMBER_OF_LINES") == ([null], ["N/A"]). -/
theorem c3_na_is_reported_failure :
    robust_to_numeric [Cell.str "N/A"] "NUMBER_OF_LINES" =
      .ok ([none], [Cell.str "N/A"]) := by
  rfl

/-- C4, counterexample: the claim "otherwise returns a cleaned table" is
false of the code: with CITY and COUNTRY both present after normalization,
an ANNUAL_RIDERSHIP cell "x, million" makes the million/billion rewrite
capture the bare comma as its numeric group, so the unguarded
float(group.replace(",", "")) is float("") and raises an uncaught
ValueError — validate_dataframe returns no cleaned table. -/
theorem c4_counterexample :
    "CITY" ∈ headers (map_columns_to_normalized (seqFilterStep
        [("CITY", [Cell.str "A"]), ("COUNTRY", [Cell.str "B"]),
         ("ANNUAL_RIDERSHIP", [Cell.str "x, million"])]).1) ∧
    "COUNTRY" ∈ headers (map_columns_to_normalized (seqFilterStep
        [("CITY", [Cell.str "A"]), ("COUNTRY", [Cell.str "B"]),
         ("ANNUAL_RIDERSHIP", [Cell.str "x, million"])]).1) ∧
    validate_dataframe
        [("CITY", [Cell.str "A"]), ("COUNTRY", [Cell.str "B"]),
         ("ANNUAL_RIDERSHIP", [Cell.str "x, million"])] =
      Except.error (PipelineError.pyError PyError.valueError) :=
  ⟨by decide, by decide, by rfl⟩

/-- C4 (amended): validate_dataframe raises the fatal ValidationError
exactly when CITY or COUNTRY is absent after column normalization (SYSTEM_ID
playing no role), and with both present it returns a cleaned table with its
issue list exactly when the numeric-conversion loop runs to completion —
i.e. unless the unguarded float()/int() calls of the million/billion rewrite
raise an uncaught ValueError or OverflowError. -/
theorem c4_required_columns_fatal (df : DataFrame) :
    ((∃ m, validate_dataframe df = Except.error (PipelineError.validationError m)) ↔
      (¬ "CITY" ∈ headers (map_columns_to_normalized (seqFilterStep df).1) ∨
       ¬ "COUNTRY" ∈ headers (map_columns_to_normalized (seqFilterStep df).1))) ∧
    ((∃ t, validate_dataframe df = Except.ok t) ↔
      ("CITY" ∈ headers (map_columns_to_normalized (seqFilterStep df).1) ∧
       "COUNTRY" ∈ headers (map_columns_to_normalized (seqFilterStep df).1) ∧
       ∃ p, convert_numeric_columns (generate_system_id_if_missing
           (map_columns_to_normalized (seqFilterStep df).1)) = Except.ok p)) := by
  have hmemiff : ∀ c, c ∈ REQUIRED_COLUMNS →
      (c ∈ validate_required_columns (map_columns_to_normalized (seqFilterStep df).1) ↔
        ¬ c ∈ headers (map_columns_to_normalized (seqFilterStep df).1)) := by
    intro c hcr
    simp [validate_required_columns, List.mem_filter, hcr]
  unfold validate_dataframe
  by_cases hcond :
      "CITY" ∈ validate_required_columns (map_columns_to_normalized (seqFilterStep df).1) ∨
      "COUNTRY" ∈ validate_required_columns (map_columns_to_normalized (seqFilterStep df).1)
  · rw [if_pos hcond]
    have hrhs : ¬ "CITY" ∈ headers (map_columns_to_normalized (seqFilterStep df).1) ∨
        ¬ "COUNTRY" ∈ headers (map_columns_to_normalized (seqFilterStep df).1) := by
      rcases hcond with h | h
      · exact Or.inl ((hmemiff "CITY" (by decide)).mp h)
      · exact Or.inr ((hmemiff "COUNTRY" (by decide)).mp h)
    constructor
    · constructor
      · intro _
        exact hrhs
      · intro _
        exact ⟨_, rfl⟩
    · constructor
      · rintro ⟨t, ht⟩
        exact Except.noConfusion ht
      · rintro ⟨h1, h2, _⟩
        rcases hrhs with h | h
        · exact absurd h1 h
        · exact absurd h2 h
  · rw [if_neg hcond]
    push_neg at hcond
    have h1 : "CITY" ∈ headers (map_columns_to_normalized (seqFilterStep df).1) := by
      by_contra hx
      exact hcond.1 ((hmemiff "CITY" (by decide)).mpr hx)
    have h2 : "COUNTRY" ∈ headers (map_columns_to_normalized (seqFilterStep df).1) := by
      by_contra hx
      exact hcond.2 ((hmemiff "COUNTRY" (by decide)).mpr hx)
    rcases hconv : convert_numeric_columns (generate_system_id_if_missing
        (map_columns_to_normalized (seqFilterStep df).1)) with e | p
    · constructor
      · constructor
        · rintro ⟨m, hm⟩
          exact PipelineError.noConfusion (Except.error.inj hm)
        · rintro (h | h)
          · exact absurd h1 h
          · exact absurd h2 h
      · constructor
        · rintro ⟨t, ht⟩
          exact Except.noConfusion ht
        · rintro ⟨_, _, p, hp⟩
          exact Except.noConfusion hp
    · constructor
      · constructor
        · rintro ⟨m, hm⟩
          exact Except.noConfusion hm
        · rintro (h | h)
          · exact absurd h1 h
          · exact absurd h2 h
      · constructor
        · intro _
          exact ⟨h1, h2, p, rfl⟩
        · intro _
          exact ⟨_, rfl⟩

/-- C5: a partially populated SYSTEM_ID column (not entirely null) is left
unchanged — the whole frame is returned as is — while for a frame with no
SYSTEM_ID column and CITY "Paris", COUNTRY "France" the backfilled ID is
"PARIS_FRANCE". -/
theorem c5_system_id_backfill (df : DataFrame) (col : Col)
    (hcol : dfLookup df "SYSTEM_ID" = some col)
    (hnotall : col.all Cell.isna = false) :
    generate_system_id_if_missing df = df ∧
    dfLookup (generate_system_id_if_missing
        [("CITY", [Cell.str "Paris"]), ("COUNTRY", [Cell.str "France"])]) "SYSTEM_ID" =
      some [Cell.str "PARIS_FRANCE"] := by
  refine ⟨?_, by decide⟩
  unfold generate_system_id_if_missing
  rw [hcol]
  simp [hnotall]

/-- Witness for C5 at a concrete frame with a half-null SYSTEM_ID column. -/
theorem c5_system_id_backfill_witness :
    generate_system_id_if_missing [("SYSTEM_ID", [Cell.str "a", Cell.null])] =
      [("SYSTEM_ID", [Cell.str "a", Cell.null])] ∧
    dfLookup (generate_system_id_if_missing
        [("CITY", [Cell.str "Paris"]), ("COUNTRY", [Cell.str "France"])]) "SYSTEM_ID" =
      some [Cell.str "PARIS_FRANCE"] :=
  c5_system_id_backfill [("SYSTEM_ID", [Cell.str "a", Cell.null])]
    [Cell.str "a", Cell.null] (by decide) (by decide)

/-- C8: coercing ["3.5 million"] for ANNUAL_RIDERSHIP yields ([3500000], []),
and whenever convert_numeric_columns completes without raising, no
conversion error it reports ever names ANNUAL_RIDERSHIP or
LAST_MAJOR_UPDATE, whatever the input frame. -/
theorem c8_exempt_columns_silent :
    robust_to_numeric [Cell.str "3.5 million"] "ANNUAL_RIDERSHIP" =
      .ok ([some 3500000], []) ∧
    ∀ (df : DataFrame) (p : DataFrame × List Issue),
      convert_numeric_columns df = .ok p →
      ∀ (c : String) (s : List Cell),
        Issue.convError c s ∈ p.2 →
        c ≠ "ANNUAL_RIDERSHIP" ∧ c ≠ "LAST_MAJOR_UPDATE" := by
  refine ⟨by rfl, ?_⟩
  intro df p hok c s hmem
  refine convFold_ok_errors numericColumns (df, []) p ?_ hok c s hmem
  intro c' s' h
  exact absurd h (List.not_mem_nil _)

/-- Witness for C8 at a frame whose NUMBER_OF_LINES column fails coercion. -/
theorem c8_exempt_columns_silent_witness :
    (robust_to_numeric [Cell.str "3.5 million"] "ANNUAL_RIDERSHIP" =
        .ok ([some 3500000], []) ∧
      convert_numeric_columns [("NUMBER_OF_LINES", [Cell.str "N/A"])] =
        .ok ([("NUMBER_OF_LINES", [Cell.null])],
          [Issue.convError "NUMBER_OF_LINES" [Cell.str "N/A"]]) ∧
      Issue.convError "NUMBER_OF_LINES" [Cell.str "N/A"] ∈
        (([("NUMBER_OF_LINES", [Cell.null])],
          [Issue.convError "NUMBER_OF_LINES" [Cell.str "N/A"]]) :
            DataFrame × List Issue).2) ∧
    "NUMBER_OF_LINES" ≠ "ANNUAL_RIDERSHIP" ∧ "NUMBER_OF_LINES" ≠ "LAST_MAJOR_UPDATE" :=
  ⟨⟨c8_exempt_columns_silent.1, by rfl, by decide⟩,
    c8_exempt_columns_silent.2 [("NUMBER_OF_LINES", [Cell.str "N/A"])]
      ([("NUMBER_OF_LINES", [Cell.null])],
        [Issue.convError "NUMBER_OF_LINES" [Cell.str "N/A"]])
      (by rfl) "NUMBER_OF_LINES" [Cell.str "N/A"] (by decide)⟩

/-- C6: on a raw frame with a "Sequence" header and no "SYSTEM_ID" header,
column normalization maps "Sequence" to SYSTEM_ID; when the pipeline
completes and at least one Sequence value survives the numeric filter, the
CITY/COUNTRY backfill is a no-op and the cleaned table's SYSTEM_ID column
holds exactly the surviving raw Sequence values. -/
theorem c6_sequence_becomes_system_id (df cleaned : DataFrame) (issues : List Issue)
    (hseq : "Sequence" ∈ headers df) (hnoid : ¬ "SYSTEM_ID" ∈ headers df)
    (hok : validate_dataframe df = Except.ok (cleaned, issues))
    (hsur : ((dfLookup df "Sequence").getD []).filter
        (fun c => (parseNumericCell c).isSome) ≠ []) :
    alookup "Sequence" (buildColumnMapping (headers df)) = some "SYSTEM_ID" ∧
    generate_system_id_if_missing (map_columns_to_normalized (seqFilterStep df).1) =
      map_columns_to_normalized (seqFilterStep df).1 ∧
    dfLookup cleaned "SYSTEM_ID" =
      some (((dfLookup df "Sequence").getD []).filter
        (fun c => (parseNumericCell c).isSome)) := by
  obtain ⟨sc, hsc⟩ := (headers_lookup df "Sequence").mp hseq
  have hgetD : (dfLookup df "Sequence").getD [] = sc := by rw [hsc]; rfl
  rw [hgetD] at hsur ⊢
  have hA := buildMapping_seq (headers df) hseq hnoid
  have hlook0 := seqFilter_lookup_seq df sc hsc
  have hseq0 : "Sequence" ∈ headers (seqFilterStep df).1 := by
    rw [seqFilter_headers]
    exact hseq
  have hd1 : dfLookup (map_columns_to_normalized (seqFilterStep df).1) "SYSTEM_ID" =
      some (sc.filter (fun c => (parseNumericCell c).isSome)) := by
    unfold map_columns_to_normalized
    rw [seqFilter_headers df]
    rw [rename_lookup_system_id (buildColumnMapping (headers df)) (seqFilterStep df).1
      hseq0 (by rw [hA]; rfl)
      (fun h hh hne => renamed_ne_system_id (headers df) hseq hnoid h
        (by rw [← seqFilter_headers df]; exact hh) hne)]
    exact hlook0
  have hmemnn : ∀ c ∈ sc.filter (fun c => (parseNumericCell c).isSome),
      c.isna = false := by
    intro c hc
    rcases List.mem_filter.mp hc with ⟨_, hp⟩
    cases c with
    | null => exact absurd hp (by simp [parseNumericCell])
    | str s => rfl
    | intv n => rfl
    | num q => rfl
  have hB := genId_skip (map_columns_to_normalized (seqFilterStep df).1) _ hd1 hsur hmemnn
  refine ⟨hA, hB, ?_⟩
  unfold validate_dataframe at hok
  by_cases hcond :
      "CITY" ∈ validate_required_columns (map_columns_to_normalized (seqFilterStep df).1) ∨
      "COUNTRY" ∈ validate_required_columns (map_columns_to_normalized (seqFilterStep df).1)
  · rw [if_pos hcond] at hok
    exact Except.noConfusion hok
  · rw [if_neg hcond] at hok
    rcases hconv2 : convert_numeric_columns (generate_system_id_if_missing
        (map_columns_to_normalized (seqFilterStep df).1)) with e | p3
    · rw [hconv2] at hok
      exact Except.noConfusion hok
    · rw [hconv2] at hok
      have hpair := Except.ok.inj hok
      have hclean : cleaned = p3.1 := (congrArg Prod.fst hpair).symm
      rw [hclean]
      have hlookp3 : dfLookup p3.1 "SYSTEM_ID" =
          dfLookup (generate_system_id_if_missing
            (map_columns_to_normalized (seqFilterStep df).1)) "SYSTEM_ID" :=
        convFold_ok_lookup numericColumns
          (generate_system_id_if_missing
            (map_columns_to_normalized (seqFilterStep df).1), [])
          p3 "SYSTEM_ID" (by decide) hconv2
      rw [hlookp3, hB, hd1]

/-- Witness for C6 at the concrete Sequence = ["1", "x", "3"] frame. -/
theorem c6_sequence_becomes_system_id_witness :
    alookup "Sequence" (buildColumnMapping (headers
      [("Sequence", [Cell.str "1", Cell.str "x", Cell.str "3"]),
       ("CITY", [Cell.str "A", Cell.str "B", Cell.str "C"]),
       ("COUNTRY", [Cell.str "X", Cell.str "Y", Cell.str "Z"])])) = some "SYSTEM_ID" ∧
    generate_system_id_if_missing (map_columns_to_normalized (seqFilterStep
      [("Sequence", [Cell.str "1", Cell.str "x", Cell.str "3"]),
       ("CITY", [Cell.str "A", Cell.str "B", Cell.str "C"]),
       ("COUNTRY", [Cell.str "X", Cell.str "Y", Cell.str "Z"])]).1) =
      map_columns_to_normalized (seqFilterStep
        [("Sequence", [Cell.str "1", Cell.str "x", Cell.str "3"]),
         ("CITY", [Cell.str "A", Cell.str "B", Cell.str "C"]),
         ("COUNTRY", [Cell.str "X", Cell.str "Y", Cell.str "Z"])]).1 ∧
    dfLookup [("SYSTEM_ID", [Cell.str "1", Cell.str "3"]),
      ("CITY", [Cell.str "A", Cell.str "C"]),
      ("COUNTRY", [Cell.str "X", Cell.str "Z"])] "SYSTEM_ID" =
      some (((dfLookup
        [("Sequence", [Cell.str "1", Cell.str "x", Cell.str "3"]),
         ("CITY", [Cell.str "A", Cell.str "B", Cell.str "C"]),
         ("COUNTRY", [Cell.str "X", Cell.str "Y", Cell.str "Z"])] "Sequence").getD []).filter
        (fun c => (parseNumericCell c).isSome)) :=
  c6_sequence_becomes_system_id
    [("Sequence", [Cell.str "1", Cell.str "x", Cell.str "3"]),
     ("CITY", [Cell.str "A", Cell.str "B", Cell.str "C"]),
     ("COUNTRY", [Cell.str "X", Cell.str "Y", Cell.str "Z"])]
    [("SYSTEM_ID", [Cell.str "1", Cell.str "3"]),
     ("CITY", [Cell.str "A", Cell.str "C"]),
     ("COUNTRY", [Cell.str "X", Cell.str "Z"])]
    [Issue.seqFiltered 1] (by decide) (by decide) rfl (by decide)

/-- C7: on a frame with a raw Sequence column, step 0 of validation drops
exactly the rows whose Sequence value fails the numeric parse (every column
is filtered by the parse mask; the surviving Sequence column is its numeric-
parseable filter), warns with the dropped-row count exactly when it is
positive, and on Sequence = ["1", "x", "3"] the full pipeline drops exactly
the second row and reports one dropped row, fatally failing nowhere. -/
theorem c7_sequence_filter (df : DataFrame) (sc : Col)
    (hsc : dfLookup df "Sequence" = some sc)
    (hwf : ∀ p ∈ df, p.2.length = sc.length) :
    (seqFilterStep df).1 = df.map (fun p => (p.1, applyMask (seqMask sc) p.2)) ∧
    (seqFilterStep df).2 =
      (if 0 < seqDropCount sc then [Issue.seqFiltered (seqDropCount sc)] else []) ∧
    dfLookup (seqFilterStep df).1 "Sequence" =
      some (sc.filter (fun c => (parseNumericCell c).isSome)) ∧
    validate_dataframe
        [("Sequence", [Cell.str "1", Cell.str "x", Cell.str "3"]),
         ("CITY", [Cell.str "A", Cell.str "B", Cell.str "C"]),
         ("COUNTRY", [Cell.str "X", Cell.str "Y", Cell.str "Z"])] =
      Except.ok ([("SYSTEM_ID", [Cell.str "1", Cell.str "3"]),
        ("CITY", [Cell.str "A", Cell.str "C"]),
        ("COUNTRY", [Cell.str "X", Cell.str "Z"])], [Issue.seqFiltered 1]) := by
  have hstep : seqFilterStep df =
      (if 0 < seqDropCount sc then
        (df.map (fun p => (p.1, applyMask (seqMask sc) p.2)),
          [Issue.seqFiltered (seqDropCount sc)])
      else (df, [])) := by
    unfold seqFilterStep
    rw [hsc]
  by_cases hk : 0 < seqDropCount sc
  · rw [hstep, if_pos hk]
    refine ⟨rfl, by rw [if_pos hk], ?_, rfl⟩
    rw [dfLookup_map_snd df (applyMask (seqMask sc)) "Sequence", hsc]
    simp [seqMask, applyMask_map_filter]
  · rw [hstep, if_neg hk]
    have hzero : seqDropCount sc = 0 := Nat.eq_zero_of_not_pos hk
    have hall := seqMask_all_true_of_dropCount_zero sc hzero
    have hid : ∀ p ∈ df, (p.1, applyMask (seqMask sc) p.2) = p := by
      intro p hp
      rw [applyMask_all_true (seqMask sc) p.2 hall (by rw [seqMask_length, hwf p hp])]
    refine ⟨?_, by rw [if_neg hk], ?_, rfl⟩
    · conv_lhs => rw [← List.map_id df]
      exact (List.map_congr_left (fun p hp => (hid p hp).symm)).symm ▸ rfl
    · rw [hsc]
      have : sc.filter (fun c => (parseNumericCell c).isSome) = sc := by
        apply List.filter_eq_self.mpr
        intro c hc
        exact hall ((parseNumericCell c).isSome) (List.mem_map.mpr ⟨c, hc, rfl⟩)
      rw [this]

/-- Witness for C7 at the concrete three-row frame of the claim. -/
theorem c7_sequence_filter_witness :
    (seqFilterStep
        [("Sequence", [Cell.str "1", Cell.str "x", Cell.str "3"]),
         ("CITY", [Cell.str "A", Cell.str "B", Cell.str "C"]),
         ("COUNTRY", [Cell.str "X", Cell.str "Y", Cell.str "Z"])]).1 =
      [("Sequence", [Cell.str "1", Cell.str "x", Cell.str "3"]),
       ("CITY", [Cell.str "A", Cell.str "B", Cell.str "C"]),
       ("COUNTRY", [Cell.str "X", Cell.str "Y", Cell.str "Z"])].map
        (fun p => (p.1, applyMask (seqMask [Cell.str "1", Cell.str "x", Cell.str "3"]) p.2)) ∧
    (seqFilterStep
        [("Sequence", [Cell.str "1", Cell.str "x", Cell.str "3"]),
         ("CITY", [Cell.str "A", Cell.str "B", Cell.str "C"]),
         ("COUNTRY", [Cell.str "X", Cell.str "Y", Cell.str "Z"])]).2 =
      (if 0 < seqDropCount [Cell.str "1", Cell.str "x", Cell.str "3"] then
        [Issue.seqFiltered (seqDropCount [Cell.str "1", Cell.str "x", Cell.str "3"])]
      else []) ∧
    dfLookup (seqFilterStep
        [("Sequence", [Cell.str "1", Cell.str "x", Cell.str "3"]),
         ("CITY", [Cell.str "A", Cell.str "B", Cell.str "C"]),
         ("COUNTRY", [Cell.str "X", Cell.str "Y", Cell.str "Z"])]).1 "Sequence" =
      some ([Cell.str "1", Cell.str "x", Cell.str "3"].filter
        (fun c => (parseNumericCell c).isSome)) ∧
    validate_dataframe
        [("Sequence", [Cell.str "1", Cell.str "x", Cell.str "3"]),
         ("CITY", [Cell.str "A", Cell.str "B", Cell.str "C"]),
         ("COUNTRY", [Cell.str "X", Cell.str "Y", Cell.str "Z"])] =
      Except.ok ([("SYSTEM_ID", [Cell.str "1", Cell.str "3"]),
        ("CITY", [Cell.str "A", Cell.str "C"]),
        ("COUNTRY", [Cell.str "X", Cell.str "Z"])], [Issue.seqFiltered 1]) :=
  c7_sequence_filter
    [("Sequence", [Cell.str "1", Cell.str "x", Cell.str "3"]),
     ("CITY", [Cell.str "A", Cell.str "B", Cell.str "C"]),
     ("COUNTRY", [Cell.str "X", Cell.str "Y", Cell.str "Z"])]
    [Cell.str "1", Cell.str "x", Cell.str "3"] (by decide) (by decide)

/-- C10: geocoding the same (city, country) a second time against the cache
produced by the first call returns the first call's result (including a
cached negative entry), issues no network call, takes no rate-limit sleep
and leaves the cache unchanged; and the first call sleeps exactly when it
was a cache miss answered successfully by the service. -/
theorem c10_geocode_cache (city country : String) (cache : GeoCache)
    (oracle : String → GeoOutcome) :
    (geocode_location city country
        (geocode_location city country cache oracle).cache oracle).coords =
      (geocode_location city country cache oracle).coords ∧
    (geocode_location city country
        (geocode_location city country cache oracle).cache oracle).cache =
      (geocode_location city country cache oracle).cache ∧
    (geocode_location city country
        (geocode_location city country cache oracle).cache oracle).netCalls = 0 ∧
    (geocode_location city country
        (geocode_location city country cache oracle).cache oracle).sleeps = 0 ∧
    (geocode_location city country cache oracle).sleeps =
      (if alookup (city ++ ", " ++ country) cache = none ∧
          (oracle (city ++ ", " ++ country)).isFound = true then 1 else 0) := by
  unfold geocode_location
  cases hl : alookup (city ++ ", " ++ country) cache with
  | some v => simp [hl]
  | none =>
    cases ho : oracle (city ++ ", " ++ country) with
    | found lat lon => simp [hl, ho, alookup_dinsert_self, GeoOutcome.isFound]
    | notFound => simp [hl, ho, alookup_dinsert_self, GeoOutcome.isFound]
    | failure => simp [hl, ho, alookup_dinsert_self, GeoOutcome.isFound]


end DuffMetro
